import Mathlib

/-!
Verification development for the HENSAD pinch-analysis engine.

The definitions below are a shallow embedding of `src/hensad/__init__.py` and
`src/gui/models/core.py`. Finite float values are modeled as rationals (ℚ);
the float sentinels NaN and ±infinity, where they matter (the ΔTmin validation
of `calculate_summary_table`), are modeled by the explicit `FloatVal` type.
Division on ℚ is total (x / 0 = 0) whereas Python float division by zero
raises; every such Python raise happens before any state mutation, so this
convention only shrinks the error set of the embedded functions and is noted
where relevant.
-/

namespace Hensad

set_option maxHeartbeats 2000000

/-- A stream table row (`StreamFrameMapper` columns ID, FLOW, CP, TIN, TOUT). -/
structure Stream where
  id : String
  flow : ℚ
  cp : ℚ
  tin : ℚ
  tout : ℚ
deriving Repr, DecidableEq, Inhabited

/-- A film-coefficient table row (`FilmCoefficientsFrameMapper`); `none` models
the unset (NaN) coefficient value. -/
structure FilmCoef where
  id : String
  coef : Option ℚ
deriving Repr, DecidableEq, Inhabited

/-- A stream row joined with its film coefficient
(`StreamFilmCoefficientFrameMapper` columns). In the no-pinch branch of
`pinch_streams_tables` the source returns the raw stream frame without a COEF
column; that case is modeled with `coef := none`. -/
structure StreamFilm where
  id : String
  flow : ℚ
  cp : ℚ
  tin : ℚ
  tout : ℚ
  coef : Option ℚ
deriving Repr, DecidableEq, Inhabited

/-- One row of the summary (temperature-interval) table
(`SummaryFrameMapper` columns). -/
structure Interval where
  name : String
  tin : ℚ
  tout : ℚ
  exheat : ℚ
  cumheat : ℚ
  hotIdx : List ℕ
  coldIdx : List ℕ
deriving Repr, DecidableEq, Inhabited

def dummyStream : Stream := ⟨"", 0, 0, 0, 0⟩

def dummyInterval : Interval := ⟨"", 0, 0, 0, 0, [], []⟩

/-- `np.unique`: deduplicated values sorted ascending. -/
def uniqueAsc (l : List ℚ) : List ℚ := (l.insertionSort (· ≤ ·)).dedup

/-- `calculate_intervals` (hensad/__init__.py lines 281-302). The cold ladder
is computed from the ascending unique array BEFORE the hot ladder is flipped
to descending order, exactly as in the source. -/
def calculate_intervals (hot cold : List Stream) (dt : ℚ) : List ℚ × List ℚ :=
  let h_t := hot.map Stream.tin ++ hot.map Stream.tout
  let c_t := cold.map Stream.tin ++ cold.map Stream.tout
  let u_h_t := uniqueAsc h_t
  let u_c_t := uniqueAsc c_t
  let hotIntAsc := uniqueAsc (u_h_t ++ u_c_t.map (· + dt))
  (hotIntAsc.reverse, hotIntAsc.map (· - dt))

/-- Hot-stream membership test of the summary loop (lines 241-246):
`hot_in == itin or hot_out == itout or (hot_in >= itin and hot_out <= itout)`. -/
def hotMember (itin itout : ℚ) (s : Stream) : Bool :=
  decide (s.tin = itin ∨ s.tout = itout ∨ (itin ≤ s.tin ∧ s.tout ≤ itout))

/-- Cold-stream membership test of the summary loop (lines 249-255), on
temperatures shifted by `dt`. -/
def coldMember (dt itin itout : ℚ) (s : Stream) : Bool :=
  decide (s.tin + dt = itout ∨ s.tout + dt = itin ∨
    (s.tin + dt ≤ itout ∧ itin ≤ s.tout + dt))

/-- Indices of hot streams that are members of the interval (itin, itout);
the filter over `range` is already sorted, matching `sorted(hot_streams)`. -/
def hotIdxFor (hot : List Stream) (itin itout : ℚ) : List ℕ :=
  (List.range hot.length).filter (fun s => hotMember itin itout (hot.getD s dummyStream))

/-- Indices of cold streams that are members of the interval (itin, itout). -/
def coldIdxFor (cold : List Stream) (dt itin itout : ℚ) : List ℕ :=
  (List.range cold.length).filter (fun s => coldMember dt itin itout (cold.getD s dummyStream))

/-- Excess heat of one interval (lines 262-268): hot members release
`mf*cp*(itin-itout)`, cold members contribute `mf*cp*(itout-itin)`. -/
def exheatFor (hot cold : List Stream) (dt itin itout : ℚ) : ℚ :=
  ((hotIdxFor hot itin itout).map
      (fun s => (hot.getD s dummyStream).flow * (hot.getD s dummyStream).cp * (itin - itout))).sum
  + ((coldIdxFor cold dt itin itout).map
      (fun s => (cold.getD s dummyStream).flow * (cold.getD s dummyStream).cp * (itout - itin))).sum

/-- The summary-table loop `for i in range(hint.size - 1)` (lines 231-276),
carrying the running cumulative heat. `fuel` is the number of remaining
iterations, `i` the current interval index. -/
def buildRows (hot cold : List Stream) (dt : ℚ) (L : List ℚ) :
    ℕ → ℕ → ℚ → List Interval
  | 0, _, _ => []
  | fuel+1, i, cum =>
    let itin := L.getD i 0
    let itout := L.getD (i+1) 0
    let ex := exheatFor hot cold dt itin itout
    { name := "I-" ++ toString (i+1), tin := itin, tout := itout,
      exheat := ex, cumheat := cum + ex,
      hotIdx := hotIdxFor hot itin itout,
      coldIdx := coldIdxFor cold dt itin itout } ::
      buildRows hot cold dt L fuel (i+1) (cum + ex)

/-- `calculate_summary_table` main computation (lines 183-278) over ℚ, for
finite valid inputs. The input-validation prelude (lines 185-196), where the
NaN/infinity distinctions matter, is modeled by `calculate_summary_tableF`. -/
def calculate_summary_table (hot cold : List Stream) (dt : ℚ) : List Interval :=
  let L := (calculate_intervals hot cold dt).1
  buildRows hot cold dt L (L.length - 1) 0 0

/-- The backward scan of `calculate_pinch_utilities` (lines 312-321): `i` runs
from `n-1` down to `1`. The outer `none` models the NameError raised when
`pinch_idx` is never assigned; `some none` is the explicit no-pinch marker. -/
def pinchScan (ex : List ℚ) : ℕ → Option (Option ℕ)
  | 0 => none
  | i+1 =>
    if ex.getD (i+1) 0 ≤ 0 ∧ i+1 ≠ ex.length - 1 then
      some (if ex.getD (i+2) 0 ≤ 0 then none else some (i+1))
    else pinchScan ex i

/-- `calculate_pinch_utilities` (lines 305-336). Returns
`(hot_t_pinch, huq, cuq)`; the pinch temperature is `none` when the source
returns NaN; `.error` models the unhandled NameError. -/
def calculate_pinch_utilities (summary : List Interval) :
    Except Unit (Option ℚ × ℚ × ℚ) :=
  let ex := summary.map Interval.exheat
  match pinchScan ex (summary.length - 1) with
  | none => .error ()
  | some none => .ok (none, |ex.sum|, 0)
  | some (some p) =>
    .ok (some ((summary.getD p dummyInterval).tout),
      |(ex.take (p+1)).sum|, |(ex.drop (p+1)).sum|)

/-- Round half to even, as `np.around` does. -/
def roundHalfEven (q : ℚ) : ℤ :=
  if q - Int.floor q < 1/2 then Int.floor q
  else if 1/2 < q - Int.floor q then Int.floor q + 1
  else if Int.floor q % 2 = 0 then Int.floor q else Int.floor q + 1

/-- `np.around(q, 4)` (`_ROUND_OFF = 4`). -/
def around4 (q : ℚ) : ℚ := (roundHalfEven (q * 10000) : ℤ) / 10000

/-- The left join `streams.set_index(ID).join(film.set_index(ID))` for one
stream row: attach the first film coefficient with a matching stream id. -/
def joinFilm (film : List FilmCoef) (s : Stream) : StreamFilm :=
  { id := s.id, flow := s.flow, cp := s.cp, tin := s.tin, tout := s.tout,
    coef := (film.find? (fun f => decide (f.id = s.id))).bind FilmCoef.coef }

/-- A stream row viewed as a partition row without a film coefficient (the
no-pinch branch copies the raw stream frames). -/
def streamNoCoef (s : Stream) : StreamFilm :=
  { id := s.id, flow := s.flow, cp := s.cp, tin := s.tin, tout := s.tout, coef := none }

/-- `pinch_streams_tables` (lines 339-413): split the stream tables into
above and below pinch partitions, clamping temperatures at the rounded pinch and
joining film coefficients. Returns
`(hot_above, cold_above, hot_below, cold_below)`. -/
def pinch_streams_tables (hot cold : List Stream) (dt : ℚ) (pinch : Option ℚ)
    (hotFilm coldFilm : List FilmCoef) :
    List StreamFilm × List StreamFilm × List StreamFilm × List StreamFilm :=
  match pinch with
  | none =>
    (hot.map streamNoCoef, cold.map streamNoCoef, [], [])
  | some pv =>
    let hotPinch := around4 pv
    let coldPinch := around4 (pv - dt)
    let hotAbove := ((hot.filter (fun s => decide (hotPinch ≤ s.tin))).map
      (fun s => if s.tout < hotPinch then { s with tout := hotPinch } else s)).map
      (joinFilm hotFilm)
    let coldAbove := ((cold.filter (fun s => decide (coldPinch ≤ s.tout))).map
      (fun s => if s.tin < coldPinch then { s with tin := coldPinch } else s)).map
      (joinFilm coldFilm)
    let hotBelow := ((hot.filter (fun s => decide (s.tout < hotPinch))).map
      (fun s => if hotPinch ≤ s.tin then { s with tin := hotPinch } else s)).map
      (joinFilm hotFilm)
    let coldBelow := ((cold.filter (fun s => decide (s.tin < coldPinch))).map
      (fun s => if coldPinch ≤ s.tout then { s with tout := coldPinch } else s)).map
      (joinFilm coldFilm)
    (hotAbove, coldAbove, hotBelow, coldBelow)

/-- `calculate_minimum_exchangers` (lines 416-423), equation 15.1. -/
def calculate_minimum_exchangers (hot cold : List StreamFilm) (sect : String) : ℤ :=
  (hot.length : ℤ) + cold.length
    + (if sect = "above" then 1 else 0)
    + (if sect = "below" then 1 else 0) - 1

/-! ## Float semantics for the input-validation prelude

`calculate_summary_table` validates `dt` with `dt <= 0 or np.isnan(dt)`.
NaN and the infinities matter there, so this part of the embedding uses an
explicit IEEE-style value type instead of ℚ. -/

/-- A float value: finite rational, NaN, or ±infinity. -/
inductive FloatVal
  | fin (q : ℚ)
  | nan
  | inf
  | ninf
deriving Repr, DecidableEq, Inhabited

/-- IEEE `<=`: false on NaN operands. -/
def fle : FloatVal → FloatVal → Bool
  | .nan, _ => false
  | _, .nan => false
  | .ninf, _ => true
  | _, .ninf => false
  | _, .inf => true
  | .inf, _ => false
  | .fin a, .fin b => decide (a ≤ b)

/-- IEEE `==`: false on NaN operands. -/
def feq : FloatVal → FloatVal → Bool
  | .fin a, .fin b => decide (a = b)
  | .inf, .inf => true
  | .ninf, .ninf => true
  | _, _ => false

def fisnan : FloatVal → Bool
  | .nan => true
  | _ => false

def fneg : FloatVal → FloatVal
  | .fin a => .fin (-a)
  | .nan => .nan
  | .inf => .ninf
  | .ninf => .inf

/-- IEEE addition (inf - inf = NaN, NaN propagates). -/
def fadd : FloatVal → FloatVal → FloatVal
  | .nan, _ => .nan
  | _, .nan => .nan
  | .inf, .ninf => .nan
  | .ninf, .inf => .nan
  | .inf, _ => .inf
  | _, .inf => .inf
  | .ninf, _ => .ninf
  | _, .ninf => .ninf
  | .fin a, .fin b => .fin (a + b)

def fsub (a b : FloatVal) : FloatVal := fadd a (fneg b)

/-- IEEE multiplication (0 * inf = NaN, NaN propagates, sign rules). -/
def fmul : FloatVal → FloatVal → FloatVal
  | .nan, _ => .nan
  | _, .nan => .nan
  | .inf, .inf => .inf
  | .inf, .ninf => .ninf
  | .ninf, .inf => .ninf
  | .ninf, .ninf => .inf
  | .inf, .fin b => if b = 0 then .nan else if 0 < b then .inf else .ninf
  | .ninf, .fin b => if b = 0 then .nan else if 0 < b then .ninf else .inf
  | .fin a, .inf => if a = 0 then .nan else if 0 < a then .inf else .ninf
  | .fin a, .ninf => if a = 0 then .nan else if 0 < a then .ninf else .inf
  | .fin a, .fin b => .fin (a * b)

/-- The total order used by `np.unique` for sorting: -inf, finite, +inf, NaN
(NaN sorts last). -/
def fsortLe : FloatVal → FloatVal → Bool
  | .ninf, _ => true
  | _, .ninf => false
  | .fin a, .fin b => decide (a ≤ b)
  | .fin _, _ => true
  | .inf, .fin _ => false
  | .inf, .inf => true
  | .inf, .nan => true
  | .nan, .nan => true
  | .nan, _ => false

def uniqueAscF (l : List FloatVal) : List FloatVal :=
  (l.insertionSort (fun a b => fsortLe a b = true)).dedup

/-- One row of the summary table with float-valued temperatures/heats. -/
structure IntervalF where
  name : String
  tin : FloatVal
  tout : FloatVal
  exheat : FloatVal
  cumheat : FloatVal
  hotIdx : List ℕ
  coldIdx : List ℕ
deriving Repr, DecidableEq, Inhabited

/-- `calculate_intervals` over float values; stream temperatures are finite
floats per the data model. -/
def calculate_intervalsF (hot cold : List Stream) (dt : FloatVal) :
    List FloatVal × List FloatVal :=
  let h_t := hot.map (fun s => FloatVal.fin s.tin) ++ hot.map (fun s => FloatVal.fin s.tout)
  let c_t := cold.map (fun s => FloatVal.fin s.tin) ++ cold.map (fun s => FloatVal.fin s.tout)
  let u_h_t := uniqueAscF h_t
  let u_c_t := uniqueAscF c_t
  let hotIntAsc := uniqueAscF (u_h_t ++ u_c_t.map (fun t => fadd t dt))
  (hotIntAsc.reverse, hotIntAsc.map (fun t => fsub t dt))

def hotMemberF (itin itout : FloatVal) (s : Stream) : Bool :=
  feq (.fin s.tin) itin || feq (.fin s.tout) itout ||
    (fle itin (.fin s.tin) && fle (.fin s.tout) itout)

def coldMemberF (dt itin itout : FloatVal) (s : Stream) : Bool :=
  feq (fadd (.fin s.tin) dt) itout || feq (fadd (.fin s.tout) dt) itin ||
    (fle (fadd (.fin s.tin) dt) itout && fle itin (fadd (.fin s.tout) dt))

def fsum (l : List FloatVal) : FloatVal := l.foldl fadd (.fin 0)

def exheatForF (hot cold : List Stream) (dt itin itout : FloatVal) : FloatVal :=
  fadd
    (fsum (((List.range hot.length).filter
        (fun s => hotMemberF itin itout (hot.getD s dummyStream))).map
      (fun s => fmul (fmul (.fin (hot.getD s dummyStream).flow)
        (.fin (hot.getD s dummyStream).cp)) (fsub itin itout))))
    (fsum (((List.range cold.length).filter
        (fun s => coldMemberF dt itin itout (cold.getD s dummyStream))).map
      (fun s => fmul (fmul (.fin (cold.getD s dummyStream).flow)
        (.fin (cold.getD s dummyStream).cp)) (fsub itout itin))))

def buildRowsF (hot cold : List Stream) (dt : FloatVal) (L : List FloatVal) :
    ℕ → ℕ → FloatVal → List IntervalF
  | 0, _, _ => []
  | fuel+1, i, cum =>
    let itin := L.getD i (.fin 0)
    let itout := L.getD (i+1) (.fin 0)
    let ex := exheatForF hot cold dt itin itout
    { name := "I-" ++ toString (i+1), tin := itin, tout := itout,
      exheat := ex, cumheat := fadd cum ex,
      hotIdx := (List.range hot.length).filter
        (fun s => hotMemberF itin itout (hot.getD s dummyStream)),
      coldIdx := (List.range cold.length).filter
        (fun s => coldMemberF dt itin itout (cold.getD s dummyStream)) } ::
      buildRowsF hot cold dt L fuel (i+1) (fadd cum ex)

/-- `calculate_summary_table` (lines 183-278) with its input-validation
prelude: raises (`.error`) when either stream table is empty, or when
`dt <= 0 or np.isnan(dt)`; otherwise the loop body runs to completion
(it contains no raising operation). -/
def calculate_summary_tableF (hot cold : List Stream) (dt : FloatVal) :
    Except Unit (List IntervalF) :=
  if hot = [] ∨ cold = [] then .error ()
  else if fle dt (.fin 0) = true ∨ fisnan dt = true then .error ()
  else
    let L := (calculate_intervalsF hot cold dt).1
    .ok (buildRowsF hot cold dt L (L.length - 1) 0 (.fin 0))

/-! ## Canonical problem-table algorithm (for comparison with the source)

These definitions follow the words of the specification (§4.3), not the
source; they exist only to compare `calculate_pinch_utilities` against the
canonical cascade. -/

/-- Running cascade: entry `k` is the sum of the first `k+1` excess heats. -/
def cumulativeHeats (ex : List ℚ) : List ℚ :=
  (List.range ex.length).map (fun k => (ex.take (k+1)).sum)

/-- Minimum of a list (0 for the empty list, which is never used). -/
def listMin : List ℚ → ℚ
  | [] => 0
  | x :: xs => xs.foldl min x

/-- Modelled from the spec: the canonical problem-table result of §4.3.
Minimum hot-utility duty is `max(0, -min(running cascade))`; the pinch
(hot-side) temperature is the interval boundary where the cascade re-run with
that hot utility added at the top first reaches zero, and the cold-utility
duty is the value of that adjusted cascade leaving the bottom interval; if
the adjusted cascade never reaches zero there is no pinch and the hot utility
is the magnitude of the total net deficit. -/
def canonicalPinchResult (summary : List Interval) : Option ℚ × ℚ × ℚ :=
  let ex := summary.map Interval.exheat
  let cums := cumulativeHeats ex
  let huq := max 0 (-(listMin cums))
  match (List.range ex.length).find? (fun k => decide (huq + cums.getD k 0 = 0)) with
  | some k => (some ((summary.getD k dummyInterval).tout), huq,
      huq + cums.getD (ex.length - 1) 0)
  | none => (none, |ex.sum|, 0)

/-! ## Exchanger math and cost model (hensad/__init__.py, hensad/cost) -/

/-- `ExchangerType` enumeration (hensad/cost). -/
inductive ExchangerType
  | airCooler | bayonet | doublePipe | fixedTube | flatPlate | floatingHead
  | kettleReboiler | multiplePipe | scrapedWall | spiralPlate | spiralTube
  | teflonTube | uTube
deriving Repr, DecidableEq, Inhabited

def ExchangerType.value : ExchangerType → String
  | .airCooler => "Air cooler"
  | .bayonet => "Bayonet"
  | .doublePipe => "Double pipe"
  | .fixedTube => "Fixed tube"
  | .flatPlate => "Flat plate"
  | .floatingHead => "Floating head"
  | .kettleReboiler => "Kettle reboiler"
  | .multiplePipe => "Multiple pipe"
  | .scrapedWall => "Scraped wall"
  | .spiralPlate => "Spiral plate"
  | .spiralTube => "Spiral tube"
  | .teflonTube => "Teflon tube"
  | .uTube => "U tube"

/-- `ArrangementType` enumeration (hensad/cost). -/
inductive ArrangementType
  | conventional | shellTube | tubeOnly
deriving Repr, DecidableEq, Inhabited

def ArrangementType.value : ArrangementType → String
  | .conventional => "Conventional"
  | .shellTube => "Shell & Tube"
  | .tubeOnly => "Tube only"

/-- `MaterialType` enumeration (hensad/cost); `NONE` has the float NaN as its
value, modeled as `Option.none` in the stored record. -/
inductive MaterialType
  | cs | ss | cu | ni | ti | al | noneMat
deriving Repr, DecidableEq, Inhabited

def MaterialType.value : MaterialType → Option String
  | .cs => some "Carbon Steel"
  | .ss => some "Stainless Steel"
  | .cu => some "Copper"
  | .ni => some "Nickel"
  | .ti => some "Titanium"
  | .al => some "Aluminum"
  | .noneMat => none

/-- A row of a branch design ledger (`HeatExchangerDesignFrameMapper` columns
as written by `Setup.add_exchanger`). -/
structure ExchangerRecord where
  id : String
  interval : String
  duty : ℚ
  cost : ℚ
  type : String
  arrangement : String
  shell : Option String
  tube : Option String
  source : String
  dest : String
  hotIn : ℚ
  hotOut : ℚ
  coldIn : ℚ
  coldOut : ℚ
  dtlm : ℚ
  u : ℚ
  f : ℚ
  area : ℚ
  nshell : ℤ
deriving Repr, DecidableEq, Inhabited

/-- `np.isclose` with the default tolerances rtol=1e-05, atol=1e-08. -/
def npIsClose (a b : ℚ) : Bool :=
  decide (|a - b| ≤ 1/100000000 + (1/100000) * |b|)

/-- `calculate_log_mean_diff` (lines 457-495). The transcendental `np.log` is
abstracted as the parameter `ln`; `.error` is the ValueError on an invalid
approach type. -/
def calculate_log_mean_diff (ln : ℚ → ℚ) (exType : String)
    (hotIn hotOut coldIn coldOut : ℚ) : Except Unit ℚ :=
  if exType = "co" then
    let DTA := hotIn - coldIn
    let DTB := hotOut - coldOut
    .ok (if npIsClose DTA DTB then DTA else (DTA - DTB) / ln (DTA / DTB))
  else if exType = "counter" then
    let DTA := hotIn - coldOut
    let DTB := hotOut - coldIn
    .ok (if npIsClose DTA DTB then DTA else (DTA - DTB) / ln (DTA / DTB))
  else .error ()

/-- `calculate_number_of_shells` (lines 506-536), with `np.log` abstracted as
`ln`. -/
def calculate_number_of_shells (ln : ℚ → ℚ) (hot cold : Stream) : ℤ :=
  let R := (cold.flow * cold.cp) / (hot.flow * hot.cp)
  let P := (cold.tout - cold.tin) / (hot.tin - cold.tin)
  Int.ceil (if R ≠ 1 then ln ((1 - P * R) / (1 - P)) / ln (1 / R) else P / (1 - P))

/-- `calculate_exchanger_area` (lines 539-567) for the scalar-coefficient call
sites in core.py: returns `(area, U)`. -/
def calculate_exchanger_area (duty dtln hotCoef coldCoef factor : ℚ) : ℚ × ℚ :=
  let u := 1 / (1 / hotCoef + 1 / coldCoef)
  (duty * 1000 / (u * dtln * factor), u)

/-- The type of the bare-module costing function of hensad/cost. Modelled from
the spec: the correlation tables `heat_exchanger.csv` and `heat_ex_mat_fac.csv`
that `calculate_bare_module_cost` reads are not part of src, so the costing
(§4.10: correlation lookup validated against pressure/area ranges, failing
with `.error` outside them or for missing table entries) is abstracted as a
fallible function parameter. -/
def CbmFn : Type :=
  ExchangerType → ArrangementType → MaterialType → MaterialType → ℚ → ℚ → Except Unit ℚ

/-! ## The heat-flow / composite-curve / segment / area engine
(hensad/__init__.py lines 426-948) -/

/-- A row of the heat-flow cascade table (`HeatFlowFrameMapper` columns
UTIL, OUT, EXHEAT). -/
structure HeatFlowRow where
  util : ℚ
  out : ℚ
  exheat : ℚ
deriving Repr, DecidableEq, Inhabited

/-- The while-loop of `calculate_heat_flows` (lines 437-452): cascades the
interval exheats; a non-positive flow is clamped to zero and its magnitude
diverted to the utility column (`util = np.abs(out)`), and the clamped value
is what is carried to the next interval (`out_prev = out` runs after the
clamp). -/
def heatFlowsLoop : List Interval → ℚ → List HeatFlowRow
  | [], _ => []
  | iv :: rest, outPrev =>
    let out := outPrev + iv.exheat
    if out ≤ 0 then ⟨|out|, 0, iv.exheat⟩ :: heatFlowsLoop rest 0
    else ⟨0, out, iv.exheat⟩ :: heatFlowsLoop rest out

/-- `calculate_heat_flows` (lines 426-454); `.error` is the ValueError raised
on an empty summary. -/
def calculate_heat_flows (summary : List Interval) : Except Unit (List HeatFlowRow) :=
  if summary = [] then .error () else .ok (heatFlowsLoop summary 0)

/-- A point of a composite enthalpy curve (columns Q, T). -/
structure CompositePoint where
  q : ℚ
  t : ℚ
deriving Repr, DecidableEq, Inhabited

def dummyCompositePoint : CompositePoint := ⟨0, 0⟩

/-- Hot enthalpy increment of one summary row: the inner
`for s in hs.at[i, HOTSTRIDX]` loop of `calculate_composite_enthalpy`
(lines 629-631). Stream lookups use `getD` where the source indexes
`hot.at[s, ...]`: member-index lists produced by `calculate_summary_table`
are filters of `range`, hence always in bounds. -/
def hotRowIncrement (hot : List Stream) (row : Interval) : ℚ :=
  (row.hotIdx.map (fun s =>
    (hot.getD s dummyStream).flow * (hot.getD s dummyStream).cp
      * (row.tin - row.tout))).sum

/-- Cold enthalpy increment of one summary row (lines 633-635); the shifted
temperatures `ctin = htin - dt`, `ctout = htout - dt` are kept as written. -/
def coldRowIncrement (cold : List Stream) (dt : ℚ) (row : Interval) : ℚ :=
  (row.coldIdx.map (fun s =>
    (cold.getD s dummyStream).flow * (cold.getD s dummyStream).cp
      * ((row.tin - dt) - (row.tout - dt)))).sum

/-- Final state of one TQ frame written by the loop of
`calculate_composite_enthalpy` (lines 613-638). Iteration i writes row i+1
provisionally (`T := tin` of row i) and iteration i+1 overwrites that cell
(`T := tout` of row i+1), while the two writes of the Q cell of row i+1
coincide (the cumulative heat is unchanged between the end of iteration i and
the start of iteration i+1). This builder produces the resulting
last-write-wins table directly: row i carries
`(Q = cumulative heat before row i, T = tout of row i)` and a final extra row
carries `(Q = total, T = tin of the last row)`. Input triples are
`(tout, tin, increment)` per sorted summary row. -/
def buildCurve : List (ℚ × ℚ × ℚ) → ℚ → List CompositePoint
  | [], _ => []
  | [(tout, tin, inc)], qacc => [⟨qacc, tout⟩, ⟨qacc + inc, tin⟩]
  | (tout, _, inc) :: r :: rest, qacc => ⟨qacc, tout⟩ :: buildCurve (r :: rest) (qacc + inc)

/-- `calculate_composite_enthalpy` (lines 570-639). `hs` is the summary sorted
ascending by TIN (pandas' unstable default sort is modeled as a stable
insertion sort; the TIN values of a table produced by
`calculate_summary_table` are pairwise distinct, so the orders agree). The
film-coefficient arguments and `huq` are accepted and unused exactly as in
the source. The hot cumulative heat starts at 0 and the cold one at `cuq`. -/
def calculate_composite_enthalpy (hot cold : List Stream) (dt huq cuq : ℚ)
    (hotCoefs coldCoefs : List FilmCoef) (summary : List Interval) :
    List CompositePoint × List CompositePoint :=
  let hs := summary.insertionSort (fun a b => a.tin ≤ b.tin)
  (buildCurve (hs.map (fun row => (row.tout, row.tin, hotRowIncrement hot row))) 0,
    buildCurve (hs.map (fun row =>
      (row.tout - dt, row.tin - dt, coldRowIncrement cold dt row))) cuq)

/-- `_search_enthalpy_interval` (lines 642-680): the first curve segment with
`lb <= Q <= ub and not np.isclose(lb, ub)`, as `(Q_lb, T_lb, Q_ub, T_ub)`;
`none` models the all-NaN tuple returned when no segment qualifies. -/
def search_enthalpy_interval (Q : ℚ) : List CompositePoint → Option (ℚ × ℚ × ℚ × ℚ)
  | p1 :: p2 :: rest =>
    if p1.q ≤ Q ∧ Q ≤ p2.q ∧ ¬npIsClose p1.q p2.q = true then
      some (p1.q, p1.t, p2.q, p2.t)
    else search_enthalpy_interval Q (p2 :: rest)
  | _ => none

/-- `_interpolate_temperature_in_interval` (lines 683-713): the 2x2 linear
solve of `[[Qf, 1], [Qi, 1]] @ [A, b] = [Tf, Ti]` in closed form,
`A = (Tf - Ti)/(Qf - Qi)`, `b = Ti - A*Qi`, returning `A*Q + b`. A NaN input
tuple (failed search) yields a NaN result, modeled as `none`; on `some`
tuples coming from the search, `not isclose` guarantees `Qf ≠ Qi`, so the
LinAlgError of an exactly singular matrix is unreachable (total `ℚ` division
would silently yield 0 there). -/
def interpolate_temperature_in_interval (Q : ℚ) :
    Option (ℚ × ℚ × ℚ × ℚ) → Option ℚ
  | none => none
  | some (qi, ti, qf, tf) =>
    let A := (tf - ti) / (qf - qi)
    some (A * Q + (ti - A * qi))

/-- A vertical border of the composite diagram: columns hot, cold, Q, with
NaN temperature cells modeled as `none`. -/
structure Border where
  hot : Option ℚ
  cold : Option ℚ
  q : ℚ
deriving Repr, DecidableEq, Inhabited

/-- The two borders appended at iteration i of the loop of
`_build_composite_borders` (lines 739-783): the first / last / middle cases
as written (for a one-point curve the first-border branch applies, the `elif`
being unreached). -/
def borderPairFor (hTQ cTQ : List CompositePoint) (i : ℕ) : List Border :=
  let cP := cTQ.getD i dummyCompositePoint
  let hP := hTQ.getD i dummyCompositePoint
  if i = 0 then
    [⟨some hP.t, none, hP.q⟩,
      ⟨interpolate_temperature_in_interval cP.q (search_enthalpy_interval cP.q hTQ),
        some cP.t, cP.q⟩]
  else if i = cTQ.length - 1 then
    [⟨some hP.t,
        interpolate_temperature_in_interval hP.q (search_enthalpy_interval hP.q cTQ),
        hP.q⟩,
      ⟨none, some cP.t, cP.q⟩]
  else
    [⟨interpolate_temperature_in_interval hP.q (search_enthalpy_interval hP.q hTQ),
        interpolate_temperature_in_interval hP.q (search_enthalpy_interval hP.q cTQ),
        hP.q⟩,
      ⟨interpolate_temperature_in_interval cP.q (search_enthalpy_interval cP.q hTQ),
        interpolate_temperature_in_interval cP.q (search_enthalpy_interval cP.q cTQ),
        cP.q⟩]

/-- `drop_duplicates()` over whole rows, keeping the first occurrence; pandas
treats NaN cells as equal to each other for duplicate detection, as `Option`
equality does. -/
def dedupRowsKeepFirst (seen : List Border) : List Border → List Border
  | [] => []
  | b :: rest =>
    if b ∈ seen then dedupRowsKeepFirst seen rest
    else b :: dedupRowsKeepFirst (b :: seen) rest

/-- `drop_duplicates(col, keep='first')`: keep the first row of each key
value, preserving the order of the kept rows. -/
def dedupKeyKeepFirst (key : Border → Option ℚ) (seen : List (Option ℚ)) :
    List Border → List Border
  | [] => []
  | b :: rest =>
    if key b ∈ seen then dedupKeyKeepFirst key seen rest
    else b :: dedupKeyKeepFirst key (key b :: seen) rest

/-- `_build_composite_borders` (lines 716-800): the flattened border pairs,
sorted by Q (pandas' unstable default sort modeled as a stable insertion
sort), full rows deduplicated, then deduplicated on the hot column keeping
the last occurrence (`keep='last'`, modeled by a keep-first pass between two
reversals) and on the cold column keeping the first. -/
def build_composite_borders (hTQ cTQ : List CompositePoint) : List Border :=
  let raw := ((List.range cTQ.length).map (borderPairFor hTQ cTQ)).flatten
  let sorted := raw.insertionSort (fun a b => a.q ≤ b.q)
  let d1 := dedupRowsKeepFirst [] sorted
  let d2 := (dedupKeyKeepFirst (fun b => b.hot) [] d1.reverse).reverse
  dedupKeyKeepFirst (fun b => b.cold) [] d2

/-- `np.unique` over integer indexes: distinct values sorted ascending. -/
def uniqueAscN (l : List ℕ) : List ℕ := (l.insertionSort (· ≤ ·)).dedup

/-- `_find_streams_in_interval` (lines 803-840). `dtOpt = none` selects the
hot member-index lists with a zero temperature shift, `some dv` the cold
lists shifted by dv; the shifted bounds are rounded to 4 decimals. `.error`
is the ValueError of `.values.item()` when the start or the end mask does not
match exactly one summary row. The matched indexes are swapped into order and
the member lists of the covered rows are concatenated and uniqued. -/
def find_streams_in_interval (t1 t2 : ℚ) (summary : List Interval)
    (dtOpt : Option ℚ) : Except Unit (List ℕ) :=
  let d := match dtOpt with | none => (0 : ℚ) | some dv => dv
  let intIn := fun i => around4 ((summary.getD i dummyInterval).tin - d)
  let intOut := fun i => around4 ((summary.getD i dummyInterval).tout - d)
  match (List.range summary.length).filter
      (fun i => decide (t1 < intIn i ∧ intOut i ≤ t1)),
    (List.range summary.length).filter
      (fun i => decide (t2 ≤ intIn i ∧ intOut i < t2)) with
  | [si], [ei] =>
    let lo := min si ei
    let hi := max si ei
    .ok (uniqueAscN (((List.range (hi + 1 - lo)).map (fun k =>
      match dtOpt with
      | none => (summary.getD (lo + k) dummyInterval).hotIdx
      | some _ => (summary.getD (lo + k) dummyInterval).coldIdx)).flatten))
  | _, _ => .error ()

/-- A row of the segments table: the `SegmentsFrameMapper` columns plus the
per-stream Q cells, kept as an id-keyed association list (a stream column
absent from a row is one of the zeros written by the final `fillna(0.0)`). -/
structure SegmentRow where
  hotIn : ℚ
  hotOut : ℚ
  coldIn : ℚ
  coldOut : ℚ
  q : ℚ
  dtln : ℚ
  sumQh : ℚ
  streamQ : List (String × ℚ)
deriving Repr, DecidableEq, Inhabited

/-- The `sum_Qh += Q / coef` accumulation of `calculate_segments_data`
(lines 925-945) over one side's stream indexes, `coef` being the film
coefficient divided by 1000. A NaN coefficient cell poisons the sum as NaN,
modeled as `none`; the final `fillna(0.0)` turns that into 0 at the use site.
(A film table shorter than its stream table would raise a KeyError in the
source; the tables are positionally aligned by the data model, and the
missing row is modeled as a NaN coefficient.) -/
def sumQOverCoef (film : List FilmCoef) (qOf : ℕ → ℚ) :
    List ℕ → Option ℚ → Option ℚ
  | [], acc => acc
  | idx :: rest, acc =>
    match acc, (film.getD idx ⟨"", none⟩).coef with
    | some a, some cf => sumQOverCoef film qOf rest (some (a + qOf idx / (cf / 1000)))
    | _, _ => sumQOverCoef film qOf rest none

/-- The border loop of `calculate_segments_data` (lines 890-945) over
consecutive border pairs: a segment row is produced only when both borders of
the pair have non-NaN hot and cold temperatures (skipped pairs leave no row);
the pair temperatures are rounded to 4 decimals, Q is the border enthalpy
difference, DTLN the co-current LMTD, and the member streams come from
`_find_streams_in_interval`, whose ValueError aborts the whole computation
uncaught. -/
def buildSegments (ln : ℚ → ℚ) (hot cold : List Stream) (dt : ℚ)
    (hotCoefs coldCoefs : List FilmCoef) (summary : List Interval) :
    List (Border × Border) → Except Unit (List SegmentRow)
  | [] => .ok []
  | (b1, b2) :: rest =>
    match b1.hot, b1.cold, b2.hot, b2.cold with
    | some th1, some tc1, some th2, some tc2 =>
      let hot1 := around4 th1
      let hot2 := around4 th2
      let cold1 := around4 tc1
      let cold2 := around4 tc2
      match calculate_log_mean_diff ln "co" hot1 hot2 cold1 cold2 with
      | .error e => .error e
      | .ok dtln =>
        match find_streams_in_interval hot1 hot2 summary none,
          find_streams_in_interval cold1 cold2 summary (some dt) with
        | .ok hidx, .ok cidx =>
          let hQ := fun idx =>
            (hot.getD idx dummyStream).flow * (hot.getD idx dummyStream).cp
              * (hot2 - hot1)
          let cQ := fun idx =>
            (cold.getD idx dummyStream).flow * (cold.getD idx dummyStream).cp
              * (cold2 - cold1)
          let sumQh := sumQOverCoef coldCoefs cQ cidx
            (sumQOverCoef hotCoefs hQ hidx (some 0))
          match buildSegments ln hot cold dt hotCoefs coldCoefs summary rest with
          | .error e => .error e
          | .ok rows =>
            .ok ({ hotIn := hot1
                   hotOut := hot2
                   coldIn := cold1
                   coldOut := cold2
                   q := b2.q - b1.q
                   dtln := dtln
                   sumQh := sumQh.getD 0
                   streamQ :=
                     hidx.map (fun idx => ((hot.getD idx dummyStream).id, hQ idx))
                       ++ cidx.map (fun idx =>
                         ((cold.getD idx dummyStream).id, cQ idx)) } :: rows)
        | _, _ => .error ()
    | _, _, _, _ => buildSegments ln hot cold dt hotCoefs coldCoefs summary rest

/-- `calculate_segments_data` (lines 843-948) with `np.log` abstracted as
`ln` (used by the per-segment LMTDs): borders from the composite curves,
then the segment rows over consecutive border pairs. -/
def calculate_segments_data (ln : ℚ → ℚ) (hot cold : List Stream) (dt : ℚ)
    (hot_composite cold_composite : List CompositePoint)
    (hotCoefs coldCoefs : List FilmCoef) (summary : List Interval) :
    Except Unit (List SegmentRow) :=
  let borders := build_composite_borders hot_composite cold_composite
  buildSegments ln hot cold dt hotCoefs coldCoefs summary
    (borders.zip borders.tail)

/-- The network-area expression of `_update_summary` (core.py lines 404-406):
`(segments[SUM_QH] / (segments[DTLN] * 0.8)).sum()`. -/
def networkArea (segments : List SegmentRow) : ℚ :=
  (segments.map (fun r => r.sumQh / (r.dtln * (4 / 5)))).sum

/-! ## The Setup aggregate (gui/models/core.py) -/

/-- The mutable state of a `Setup` object: the input tables, the derived
results assigned by `_update_summary` — summary, pinch, utility requirements,
hot temperature ladder, heat-flow cascade, composite enthalpy curves, segment
table, network area, pinch partitions and minimum-exchanger counts — and the
two branch design ledgers. `dt` is `none` while unset (the initial NaN);
`areaNetwork = none` is the NaN assigned by the `except` branch. -/
structure SetupState where
  hot : List Stream
  cold : List Stream
  dt : Option ℚ
  hotFilmCoef : List FilmCoef
  coldFilmCoef : List FilmCoef
  summary : List Interval
  pinch : Option ℚ
  hotUtilReq : ℚ
  coldUtilReq : ℚ
  hotAbove : List StreamFilm
  coldAbove : List StreamFilm
  hotBelow : List StreamFilm
  coldBelow : List StreamFilm
  aboveMinExchangers : ℤ
  belowMinExchangers : ℤ
  designAbove : List ExchangerRecord
  designBelow : List ExchangerRecord
  hotInterval : List ℚ
  heatFlow : List HeatFlowRow
  hotCompositeData : List CompositePoint
  coldCompositeData : List CompositePoint
  compositeSegmentsData : List SegmentRow
  areaNetwork : Option ℚ
deriving Repr, DecidableEq, Inhabited

/-- The `except ValueError` branch of `Setup._update_summary` (lines 358-380):
clears every derived table, sets the network area to NaN (the hot-interval
ladder is NOT reassigned there and keeps its stale value), then
(lines 437-447) recomputes the minimum exchanger counts from the now-empty
partitions and resets both ledgers. -/
def clearDerived (s : SetupState) : SetupState :=
  { s with
    summary := []
    pinch := none
    hotUtilReq := 0
    coldUtilReq := 0
    hotCompositeData := []
    coldCompositeData := []
    compositeSegmentsData := []
    areaNetwork := none
    hotAbove := []
    coldAbove := []
    hotBelow := []
    coldBelow := []
    heatFlow := []
    aboveMinExchangers := calculate_minimum_exchangers [] [] "above"
    belowMinExchangers := calculate_minimum_exchangers [] [] "below"
    designAbove := []
    designBelow := [] }

/-- `Setup._update_summary` (lines 355-447) with `np.log` abstracted as `ln`
(used by the segment LMTDs of the recompute). The `try` corresponds to the
validation of `calculate_summary_table`: `dt = none` models the initial NaN
(rejected as `np.isnan`), `dtv ≤ 0` and empty stream tables are the other
ValueError cases. In the `else` branch the hot-interval ladder is assigned to
`self` first (line 386); the NameError of `calculate_pinch_utilities` and the
ValueError of the segment stream search propagate uncaught AFTER that
assignment, so on those raises the state keeps the new ladder and nothing
else (every other field is assigned only after all computations, lines
417-447). The empty-summary ValueError of `calculate_heat_flows`
(unreachable once the pinch scan succeeded) is modeled the same way. -/
def updateSummary (ln : ℚ → ℚ) (s : SetupState) : SetupState :=
  match s.dt with
  | none => clearDerived s
  | some dtv =>
    if s.hot = [] ∨ s.cold = [] ∨ dtv ≤ 0 then clearDerived s
    else
      let summary := calculate_summary_table s.hot s.cold dtv
      let s1 := { s with hotInterval := (calculate_intervals s.hot s.cold dtv).1 }
      match calculate_pinch_utilities summary with
      | .error _ => s1
      | .ok (pinch, hur, cur) =>
        let curves := calculate_composite_enthalpy s.hot s.cold dtv hur cur
          s.hotFilmCoef s.coldFilmCoef summary
        match calculate_segments_data ln s.hot s.cold dtv curves.1 curves.2
            s.hotFilmCoef s.coldFilmCoef summary with
        | .error _ => s1
        | .ok segments =>
          let parts := pinch_streams_tables s.hot s.cold dtv pinch
            s.hotFilmCoef s.coldFilmCoef
          match calculate_heat_flows summary with
          | .error _ => s1
          | .ok hf =>
            { s1 with
              summary := summary
              pinch := pinch
              hotUtilReq := hur
              coldUtilReq := cur
              hotCompositeData := curves.1
              coldCompositeData := curves.2
              compositeSegmentsData := segments
              areaNetwork := some (networkArea segments)
              hotAbove := parts.1
              coldAbove := parts.2.1
              hotBelow := parts.2.2.1
              coldBelow := parts.2.2.2
              heatFlow := hf
              aboveMinExchangers := calculate_minimum_exchangers parts.1 parts.2.1 "above"
              belowMinExchangers := calculate_minimum_exchangers parts.2.2.1 parts.2.2.2 "below"
              designAbove := []
              designBelow := [] }

/-- The film-coefficient setters overwrite the ID column from the owning
stream table (`value.loc[:, ID] = streams.loc[:, ID]`, positional alignment
per the data model). -/
def alignIds (streams : List Stream) (film : List FilmCoef) : List FilmCoef :=
  film.mapIdx (fun i fc => { fc with id := (streams.getD i dummyStream).id })

/-- `Setup.hot` setter: assigning emits `hot_changed`, whose only slot is
`_update_summary` (connected in `Setup.__init__`, lines 350-353); `ln`
abstracts the `np.log` used by the recompute's segment LMTDs. -/
def SetupState.setHot (s : SetupState) (ln : ℚ → ℚ) (value : List Stream) : SetupState :=
  updateSummary ln { s with hot := value }

/-- `Setup.cold` setter: assigning emits `cold_changed` -> `_update_summary`. -/
def SetupState.setCold (s : SetupState) (ln : ℚ → ℚ) (value : List Stream) : SetupState :=
  updateSummary ln { s with cold := value }

/-- `Setup.dt` setter: assigning emits `dt_changed` -> `_update_summary`. -/
def SetupState.setDt (s : SetupState) (ln : ℚ → ℚ) (value : Option ℚ) : SetupState :=
  updateSummary ln { s with dt := value }

/-- `Setup.hot_film_coef` setter (lines 296-312): overwrites the ID column and
emits `hot_coeffs_changed`, a signal with no connected slot — no recompute. -/
def SetupState.setHotFilmCoef (s : SetupState) (value : List FilmCoef) : SetupState :=
  { s with hotFilmCoef := alignIds s.hot value }

/-- `Setup.cold_film_coef` setter (lines 322-338): overwrites the ID column
and emits `cold_coeffs_changed`, a signal with no connected slot. -/
def SetupState.setColdFilmCoef (s : SetupState) (value : List FilmCoef) : SetupState :=
  { s with coldFilmCoef := alignIds s.cold value }

/-! ## split_stream (core.py lines 508-575) -/

inductive SplitError
  | keyError
  | valueError
deriving Repr, DecidableEq

/-- The partition table selected by `(des_type, stream_type)`. -/
def targetPartition (s : SetupState) (desType streamType : String) : List StreamFilm :=
  if desType = "abv" then
    (if streamType = "hot" then s.hotAbove else s.coldAbove)
  else
    (if streamType = "hot" then s.hotBelow else s.coldBelow)

def setTargetPartition (s : SetupState) (desType streamType : String)
    (v : List StreamFilm) : SetupState :=
  if desType = "abv" then
    (if streamType = "hot" then { s with hotAbove := v } else { s with coldAbove := v })
  else
    (if streamType = "hot" then { s with hotBelow := v } else { s with coldBelow := v })

/-- `chr(ord('A') + i)`. -/
def splitSuffix (i : ℕ) : String := String.singleton (Char.ofNat (65 + i))

/-- `Setup.split_stream`: replaces one partition row by sub-streams with the
given flowrates, keeping all other properties, provided the flowrates sum
exactly to the original flow; resets both design ledgers. On failure the
returned state is the unchanged input (the source raises before mutating). -/
def split_stream (s : SetupState) (desType streamType streamId : String)
    (flowrates : List ℚ) : SetupState × Option SplitError :=
  let df := targetPartition s desType streamType
  if streamId ∉ df.map StreamFilm.id then (s, some .keyError)
  else
    let stream := (df.find? (fun r => decide (r.id = streamId))).getD default
    if flowrates.sum ≠ stream.flow then (s, some .valueError)
    else
      let newStreams := flowrates.mapIdx
        (fun i fl => { stream with id := streamId ++ "_" ++ splitSuffix i, flow := fl })
      let kept := df.filter (fun r => decide (r.id ≠ streamId))
      let s2 := setTargetPartition s desType streamType (kept ++ newStreams)
      ({ s2 with designAbove := [], designBelow := [] }, none)

/-! ## add_exchanger / add_utility_exchanger (core.py lines 577-958)

Both methods run all their checks and computations on local values and only
assign `self.design_above`/`self.design_below` at the very end; the embedding
mirrors this by computing the candidate `ExchangerRecord` (with every raise
modeled as `.error`) and committing it only on success. -/

def maxListD : List ℚ → ℚ
  | [] => 0
  | x :: xs => xs.foldl max x

def minListD : List ℚ → ℚ
  | [] => 0
  | x :: xs => xs.foldl min x

/-- The checks and computations of `Setup.add_exchanger` (lines 577-791),
producing the would-be ledger row. `ln` abstracts `np.log`; `cbm` abstracts
the bare-module costing. -/
def addExchangerRow (ln : ℚ → ℚ) (cbm : CbmFn) (s : SetupState)
    (desType exId : String) (duty : ℚ) (interval streamSource streamDest : String)
    (exType : ExchangerType) (arrangement : ArrangementType)
    (shellMat tubeMat : MaterialType) (pressure factor : ℚ) :
    Except Unit ExchangerRecord :=
  if desType = "abv" ∨ desType = "blw" then
    let hotDf := if desType = "abv" then s.hotAbove else s.hotBelow
    let coldDf := if desType = "abv" then s.coldAbove else s.coldBelow
    let design := if desType = "abv" then s.designAbove else s.designBelow
    let allowedEx := if desType = "abv" then s.aboveMinExchangers else s.belowMinExchangers
    if (design.length : ℤ) ≥ allowedEx then .error ()
    else if s.hotFilmCoef = [] ∨ s.coldFilmCoef = [] ∨
        s.hotFilmCoef.any (fun fc => fc.coef = none) ∨
        s.coldFilmCoef.any (fun fc => fc.coef = none) then .error ()
    else if exId ∈ design.map ExchangerRecord.id then .error ()
    else if streamSource ∉ hotDf.map StreamFilm.id then .error ()
    else if streamDest ∉ coldDf.map StreamFilm.id then .error ()
    else
      let hotInfo := (hotDf.find? (fun r => decide (r.id = streamSource))).getD default
      let coldInfo := (coldDf.find? (fun r => decide (r.id = streamDest))).getD default
      let hCp := hotInfo.cp
      let hMf := hotInfo.flow
      let cCp := coldInfo.cp
      let cMf := coldInfo.flow
      let hotCoef := hotInfo.coef.getD 0
      let coldCoef := coldInfo.coef.getD 0
      let hTin0 := if desType = "abv" then hotInfo.tin
        else if streamSource ∈ design.map ExchangerRecord.source then
          maxListD ((design.filter (fun r => decide (r.source = streamSource))).map
            ExchangerRecord.hotOut)
        else hotInfo.tin
      let hTout0 := if desType = "abv" then
          (if streamSource ∈ design.map ExchangerRecord.source then
            maxListD ((design.filter (fun r => decide (r.source = streamSource))).map
              ExchangerRecord.hotIn)
          else hotInfo.tout)
        else hotInfo.tout
      let cTin0 := if desType = "abv" then
          (if streamDest ∈ design.map ExchangerRecord.dest then
            maxListD ((design.filter (fun r => decide (r.dest = streamDest))).map
              ExchangerRecord.coldOut)
          else coldInfo.tin)
        else coldInfo.tin
      let cTout0 := if desType = "abv" then coldInfo.tout
        else if streamDest ∈ design.map ExchangerRecord.dest then
          maxListD ((design.filter (fun r => decide (r.dest = streamDest))).map
            ExchangerRecord.coldIn)
        else coldInfo.tout
      if duty > |hMf * hCp * (hTin0 - hTout0)| then .error ()
      else
        let hTin := if desType = "abv" then hTout0 + duty / (hMf * hCp) else hTin0
        let hTout := if desType = "abv" then hTout0 else hTin0 - duty / (hMf * hCp)
        if duty > |cMf * cCp * (cTout0 - cTin0)| then .error ()
        else
          let cTin := if desType = "abv" then cTin0 else cTout0 - duty / (cMf * cCp)
          let cTout := if desType = "abv" then cTin0 + duty / (cMf * cCp) else cTout0
          match calculate_log_mean_diff ln "counter" hTin hTout cTin cTout with
          | .error _ => .error ()
          | .ok dtln =>
            if (match s.dt with | some d => decide (dtln < d) | none => false) = true then .error ()
            else
              let au := calculate_exchanger_area duty dtln hotCoef coldCoef factor
              match cbm exType arrangement shellMat tubeMat au.1 pressure with
              | .error _ => .error ()
              | .ok cost =>
                let nShells := calculate_number_of_shells ln
                  ⟨streamSource, hMf, hCp, hTin, hTout⟩
                  ⟨streamDest, cMf, cCp, cTin, cTout⟩
                .ok { id := exId, interval := interval, duty := duty
                      cost := cost, type := exType.value
                      arrangement := arrangement.value
                      shell := shellMat.value, tube := tubeMat.value
                      source := streamSource, dest := streamDest
                      hotIn := hTin, hotOut := hTout
                      coldIn := cTin, coldOut := cTout
                      dtlm := dtln, u := au.2, f := factor, area := au.1
                      nshell := nShells }
  else .error ()

/-- `Setup.add_exchanger`: run the checks, then append the new row to the
selected branch ledger; on any error the state is returned unchanged (the
source raises before any assignment to `self`). -/
def add_exchanger (ln : ℚ → ℚ) (cbm : CbmFn) (s : SetupState)
    (desType exId : String) (duty : ℚ) (interval streamSource streamDest : String)
    (exType : ExchangerType) (arrangement : ArrangementType)
    (shellMat tubeMat : MaterialType) (pressure factor : ℚ) :
    SetupState × Option Unit :=
  match addExchangerRow ln cbm s desType exId duty interval streamSource streamDest
      exType arrangement shellMat tubeMat pressure factor with
  | .error _ => (s, some ())
  | .ok row =>
    if desType = "abv" then ({ s with designAbove := s.designAbove ++ [row] }, none)
    else ({ s with designBelow := s.designBelow ++ [row] }, none)

/-- The checks and computations of `Setup.add_utility_exchanger`
(lines 798-954), producing the would-be ledger row. Any `utility_type` other
than `"hot"` selects the cold-utility branch, as in the source `else`. -/
def addUtilityExchangerRow (ln : ℚ → ℚ) (cbm : CbmFn) (s : SetupState)
    (desType exId : String) (duty : ℚ) (interval utilityType streamId : String)
    (utIn utOut utCoef : ℚ) (exType : ExchangerType)
    (arrangement : ArrangementType) (shellMat tubeMat : MaterialType)
    (pressure factor : ℚ) : Except Unit ExchangerRecord :=
  if desType = "abv" ∨ desType = "blw" then
    let hotDf := if desType = "abv" then s.hotAbove else s.hotBelow
    let coldDf := if desType = "abv" then s.coldAbove else s.coldBelow
    let design := if desType = "abv" then s.designAbove else s.designBelow
    let allowedEx := if desType = "abv" then s.aboveMinExchangers else s.belowMinExchangers
    if (design.length : ℤ) ≥ allowedEx then .error ()
    else if s.hotFilmCoef = [] ∨ s.coldFilmCoef = [] ∨
        s.hotFilmCoef.any (fun fc => fc.coef = none) ∨
        s.coldFilmCoef.any (fun fc => fc.coef = none) then .error ()
    else if exId ∈ design.map ExchangerRecord.id then .error ()
    else if utilityType = "hot" ∧ streamId ∉ coldDf.map StreamFilm.id then .error ()
    else if utilityType ≠ "hot" ∧ streamId ∉ hotDf.map StreamFilm.id then .error ()
    else
      let info := if utilityType = "hot" then
          (coldDf.find? (fun r => decide (r.id = streamId))).getD default
        else (hotDf.find? (fun r => decide (r.id = streamId))).getD default
      let coef := info.coef.getD 0
      let streamSource := if utilityType = "hot" then "Hot utility" else streamId
      let streamDest := if utilityType = "hot" then streamId else "Cold utility"
      let cp := info.cp
      let mf := info.flow
      let tin := if utilityType = "hot" then
          (if streamId ∈ design.map ExchangerRecord.dest then
            maxListD ((design.filter (fun r => decide (r.dest = streamId))).map
              ExchangerRecord.coldOut)
          else info.tin)
        else
          (if streamId ∈ design.map ExchangerRecord.source then
            minListD ((design.filter (fun r => decide (r.source = streamId))).map
              ExchangerRecord.hotOut)
          else info.tin)
      let tout0 := info.tout
      if duty > around4 |mf * cp * (tin - tout0)| then .error ()
      else
        let tout := if utilityType = "hot" then tin + duty / (mf * cp)
          else tin - duty / (mf * cp)
        let hTin := if utilityType = "hot" then utIn else tin
        let hTout := if utilityType = "hot" then utOut else tout
        let cTin := if utilityType = "hot" then tin else utIn
        let cTout := if utilityType = "hot" then tout else utOut
        let hotCoef := if utilityType = "hot" then utCoef else coef
        let coldCoef := if utilityType = "hot" then coef else utCoef
        match calculate_log_mean_diff ln "counter" hTin hTout cTin cTout with
        | .error _ => .error ()
        | .ok dtln =>
          let au := calculate_exchanger_area duty dtln hotCoef coldCoef factor
          match cbm exType arrangement shellMat tubeMat au.1 pressure with
          | .error _ => .error ()
          | .ok cost =>
            .ok { id := exId, interval := interval, duty := duty
                  cost := cost, type := exType.value
                  arrangement := arrangement.value
                  shell := shellMat.value, tube := tubeMat.value
                  source := streamSource, dest := streamDest
                  hotIn := hTin, hotOut := hTout
                  coldIn := cTin, coldOut := cTout
                  dtlm := dtln, u := au.2, f := factor, area := au.1
                  nshell := 0 }
  else .error ()

/-- `Setup.add_utility_exchanger`: checks, then append; on any error the state
is returned unchanged. -/
def add_utility_exchanger (ln : ℚ → ℚ) (cbm : CbmFn) (s : SetupState)
    (desType exId : String) (duty : ℚ) (interval utilityType streamId : String)
    (utIn utOut utCoef : ℚ) (exType : ExchangerType)
    (arrangement : ArrangementType) (shellMat tubeMat : MaterialType)
    (pressure factor : ℚ) : SetupState × Option Unit :=
  match addUtilityExchangerRow ln cbm s desType exId duty interval utilityType
      streamId utIn utOut utCoef exType arrangement shellMat tubeMat
      pressure factor with
  | .error _ => (s, some ())
  | .ok row =>
    if desType = "abv" then ({ s with designAbove := s.designAbove ++ [row] }, none)
    else ({ s with designBelow := s.designBelow ++ [row] }, none)

/-! ## General lemmas about the embedded definitions -/

theorem getD_map_exheat (summary : List Interval) (i : ℕ) (hi : i < summary.length) :
    (summary.map Interval.exheat).getD i 0 = (summary.getD i dummyInterval).exheat := by
  rw [List.getD_eq_getElem _ _ (by simpa using hi), List.getD_eq_getElem _ _ hi,
    List.getElem_map]

theorem pinchScan_eq_none_iff (ex : List ℚ) (k : ℕ) :
    pinchScan ex k = none ↔
      ∀ i, 1 ≤ i → i ≤ k → ex.getD i 0 ≤ 0 → i = ex.length - 1 := by
  induction k with
  | zero => simp [pinchScan]; omega
  | succ k ih =>
    rw [pinchScan]
    by_cases hc : ex.getD (k+1) 0 ≤ 0 ∧ k+1 ≠ ex.length - 1
    · simp only [if_pos hc]
      constructor
      · intro h; cases h
      · intro h
        exact absurd (h (k+1) (by omega) le_rfl hc.1) hc.2
    · simp only [if_neg hc, ih]
      constructor
      · intro h i h1 hk hex
        rcases Nat.lt_or_ge i (k+1) with hlt | hge
        · exact h i h1 (by omega) hex
        · have hik : i = k + 1 := by omega
          subst hik
          by_contra hne
          exact hc ⟨hex, hne⟩
      · intro h i h1 hk hex
        exact h i h1 (by omega) hex

theorem pinchScan_some_some (ex : List ℚ) (k p : ℕ)
    (h : pinchScan ex k = some (some p)) :
    1 ≤ p ∧ p ≤ k ∧ p ≠ ex.length - 1 ∧ ex.getD p 0 ≤ 0 ∧ ¬ ex.getD (p+1) 0 ≤ 0 := by
  induction k with
  | zero => simp [pinchScan] at h
  | succ k ih =>
    rw [pinchScan] at h
    by_cases hc : ex.getD (k+1) 0 ≤ 0 ∧ k+1 ≠ ex.length - 1
    · rw [if_pos hc] at h
      by_cases h2 : ex.getD (k+2) 0 ≤ 0
      · rw [if_pos h2] at h
        cases h
      · rw [if_neg h2] at h
        have hp : k + 1 = p := by
          injection h with h3
          injection h3
        subst hp
        exact ⟨by omega, le_rfl, hc.2, hc.1, h2⟩
    · rw [if_neg hc] at h
      obtain ⟨a, b, c, d, e⟩ := ih h
      exact ⟨a, by omega, c, d, e⟩

/-! ## C9: the pinch scan's NameError precondition -/

/-- C9: `calculate_pinch_utilities` returns a result exactly when some
interval with index between 1 and n-2 (neither the first nor the last) has
non-positive excess heat; with one or two intervals, or when every strictly
interior interval has positive excess heat, `pinch_idx` is never assigned and
the unhandled NameError (`.error`) is raised instead of a result. -/
theorem claim_C9_theorem (summary : List Interval) :
    (calculate_pinch_utilities summary).isOk = true ↔
      ∃ i, 1 ≤ i ∧ i + 1 < summary.length ∧
        (summary.getD i dummyInterval).exheat ≤ 0 := by
  have key : (calculate_pinch_utilities summary).isOk = true ↔
      ¬ pinchScan (summary.map Interval.exheat) (summary.length - 1) = none := by
    unfold calculate_pinch_utilities
    cases h : pinchScan (summary.map Interval.exheat) (summary.length - 1) with
    | none => simp [h, Except.isOk, Except.toBool]
    | some o => cases o <;> simp [h, Except.isOk, Except.toBool]
  rw [key, pinchScan_eq_none_iff]
  push_neg
  constructor
  · rintro ⟨i, h1, hk, hex, hne⟩
    have hlen : i < summary.length := by
      simp only [List.length_map] at hne
      omega
    refine ⟨i, h1, ?_, ?_⟩
    · simp only [List.length_map] at hne
      omega
    · rw [← getD_map_exheat _ _ hlen]
      exact hex
  · rintro ⟨i, h1, hlt, hex⟩
    refine ⟨i, h1, by omega, ?_, ?_⟩
    · rw [getD_map_exheat _ _ (by omega)]
      exact hex
    · simp only [List.length_map]
      omega

/-! ## C6: the interval ladders -/

theorem uniqueAsc_sorted (l : List ℚ) : (uniqueAsc l).Sorted (· ≤ ·) :=
  List.Pairwise.sublist (List.dedup_sublist _) (List.sorted_insertionSort _ l)

theorem uniqueAsc_nodup (l : List ℚ) : (uniqueAsc l).Nodup := List.nodup_dedup _

theorem mem_uniqueAsc (l : List ℚ) (a : ℚ) : a ∈ uniqueAsc l ↔ a ∈ l := by
  unfold uniqueAsc
  rw [List.mem_dedup, List.mem_insertionSort]

theorem uniqueAsc_sorted_lt (l : List ℚ) : (uniqueAsc l).Sorted (· < ·) :=
  (uniqueAsc_sorted l).lt_of_le (uniqueAsc_nodup l)

theorem ladder_sorted_gt (hot cold : List Stream) (dt : ℚ) :
    ((calculate_intervals hot cold dt).1).Sorted (· > ·) := by
  unfold calculate_intervals
  simp only [List.Sorted, List.pairwise_reverse]
  exact uniqueAsc_sorted_lt _

theorem mem_ladder (hot cold : List Stream) (dt : ℚ) (a : ℚ) :
    a ∈ (calculate_intervals hot cold dt).1 ↔
      ((∃ s ∈ hot, a = s.tin ∨ a = s.tout) ∨ (∃ s ∈ cold, a = s.tin + dt ∨ a = s.tout + dt)) := by
  unfold calculate_intervals
  simp only [List.mem_reverse, mem_uniqueAsc, List.mem_append, List.mem_map]
  aesop

/-- C6 (amended): the hot-side ladder is the deduplicated union of the hot
temperatures and the `dt`-shifted cold temperatures, sorted strictly
descending; the cold-side ladder is that ladder shifted by `-dt` but in
ASCENDING order, i.e. the REVERSE of the descending hot ladder minus `dt`
(the source computes `cold_int` before flipping `hot_int`), so the two
returned ladders are aligned in opposite index order, not index by index. -/
theorem claim_C6_theorem (hot cold : List Stream) (dt : ℚ) :
    ((calculate_intervals hot cold dt).1).Sorted (· > ·)
    ∧ (∀ a, a ∈ (calculate_intervals hot cold dt).1 ↔
        ((∃ s ∈ hot, a = s.tin ∨ a = s.tout) ∨
          (∃ s ∈ cold, a = s.tin + dt ∨ a = s.tout + dt)))
    ∧ (calculate_intervals hot cold dt).2 =
        (((calculate_intervals hot cold dt).1).map (· - dt)).reverse := by
  refine ⟨ladder_sorted_gt hot cold dt, mem_ladder hot cold dt, ?_⟩
  unfold calculate_intervals
  simp

def hotC6 : List Stream := [⟨"H1", 1, 1, 100, 50⟩]

def coldC6 : List Stream := [⟨"C1", 1, 1, 20, 80⟩]

/-- C6 counterexample: for one hot stream 100→50 and one cold stream 20→80
with ΔTmin = 10, the returned hot ladder is `[100, 90, 50, 30]` (descending)
but the returned cold ladder is `[20, 40, 80, 90]` (ascending): it is NOT the
descending hot ladder with ΔTmin subtracted element-wise, refuting the claimed
index-by-index alignment. -/
theorem claim_C6_counterexample :
    (calculate_intervals hotC6 coldC6 10).1 = [100, 90, 50, 30]
    ∧ (calculate_intervals hotC6 coldC6 10).2 = [20, 40, 80, 90]
    ∧ (calculate_intervals hotC6 coldC6 10).2 ≠
        ((calculate_intervals hotC6 coldC6 10).1).map (· - 10) := by
  refine ⟨?_, ?_, ?_⟩ <;>
    norm_num [calculate_intervals, hotC6, coldC6, uniqueAsc, List.insertionSort,
      List.orderedInsert, List.dedup]

/-! ## C1 and C2: the pinch scan versus the canonical cascade -/

theorem cumulativeHeats_length (ex : List ℚ) :
    (cumulativeHeats ex).length = ex.length := by
  simp [cumulativeHeats]

theorem cumulativeHeats_getD (ex : List ℚ) (k : ℕ) (hk : k < ex.length) :
    (cumulativeHeats ex).getD k 0 = (ex.take (k+1)).sum := by
  unfold cumulativeHeats
  rw [List.getD_eq_getElem _ _ (by simpa using hk)]
  simp

theorem foldl_min_le_init (xs : List ℚ) (a : ℚ) : xs.foldl min a ≤ a := by
  induction xs generalizing a with
  | nil => simp
  | cons x xs ih =>
    simp only [List.foldl_cons]
    exact le_trans (ih (min a x)) (min_le_left a x)

theorem foldl_min_le_mem (xs : List ℚ) (a : ℚ) (x : ℚ) (hx : x ∈ xs) :
    xs.foldl min a ≤ x := by
  induction xs generalizing a with
  | nil => cases hx
  | cons y ys ih =>
    simp only [List.foldl_cons]
    rcases List.mem_cons.mp hx with rfl | hmem
    · exact le_trans (foldl_min_le_init ys (min a x)) (min_le_right a x)
    · exact ih (min a y) hmem

theorem foldl_min_eq_or_mem (xs : List ℚ) (a : ℚ) :
    xs.foldl min a = a ∨ xs.foldl min a ∈ xs := by
  induction xs generalizing a with
  | nil => exact Or.inl rfl
  | cons y ys ih =>
    simp only [List.foldl_cons]
    rcases ih (min a y) with h | h
    · rcases min_cases a y with ⟨hm, _⟩ | ⟨hm, _⟩
      · exact Or.inl (h.trans hm)
      · exact Or.inr (List.mem_cons.mpr (Or.inl (h.trans hm)))
    · exact Or.inr (List.mem_cons.mpr (Or.inr h))

theorem listMin_le (l : List ℚ) (x : ℚ) (hx : x ∈ l) : listMin l ≤ x := by
  cases l with
  | nil => cases hx
  | cons y ys =>
    simp only [listMin]
    rcases List.mem_cons.mp hx with rfl | hmem
    · exact foldl_min_le_init ys x
    · exact foldl_min_le_mem ys y x hmem

theorem listMin_mem (l : List ℚ) (hl : l ≠ []) : listMin l ∈ l := by
  cases l with
  | nil => exact absurd rfl hl
  | cons y ys =>
    simp only [listMin]
    rcases foldl_min_eq_or_mem ys y with h | h
    · rw [h]; exact List.mem_cons_self y ys
    · exact List.mem_cons.mpr (Or.inr h)

theorem find?_range'_eq_some (pred : ℕ → Bool) :
    ∀ (n st p : ℕ), st ≤ p → p < st + n → pred p = true →
      (∀ k, st ≤ k → k < p → pred k = false) →
      (List.range' st n).find? pred = some p := by
  intro n
  induction n with
  | zero => intro st p h1 h2 _ _; omega
  | succ n ih =>
    intro st p h1 h2 hp hk
    rw [List.range'_succ]
    rcases Nat.eq_or_lt_of_le h1 with he | hlt
    · subst he
      exact List.find?_cons_of_pos _ hp
    · have hst : pred st = false := hk st le_rfl hlt
      rw [List.find?_cons_of_neg _ (by simp [hst])]
      exact ih (st+1) p (by omega) (by omega) hp (fun k hk1 hk2 => hk k (by omega) hk2)

theorem find?_range_eq_some (pred : ℕ → Bool) (n p : ℕ) (hpn : p < n)
    (hp : pred p = true) (hbefore : ∀ k, k < p → pred k = false) :
    (List.range n).find? pred = some p := by
  rw [List.range_eq_range']
  exact find?_range'_eq_some pred n 0 p (Nat.zero_le p) (by omega) hp
    (fun k _ hk2 => hbefore k hk2)

/-- C1 (amended): the scan of `calculate_pinch_utilities` picks the
bottom-most interior index `p` with non-positive excess heat (followed by a
positive one); its result agrees with the canonical problem-table result
exactly on summaries where that `p` happens to be the FIRST minimizer of the
running cascade and the minimum is non-positive. Under those hypotheses the
returned triple equals `canonicalPinchResult`. -/
theorem claim_C1_theorem (summary : List Interval) (p : ℕ)
    (h1 : pinchScan (summary.map Interval.exheat) (summary.length - 1) = some (some p))
    (hmin : ∀ k, k < summary.length →
      (cumulativeHeats (summary.map Interval.exheat)).getD p 0 ≤
        (cumulativeHeats (summary.map Interval.exheat)).getD k 0)
    (hfirst : ∀ k, k < p →
      (cumulativeHeats (summary.map Interval.exheat)).getD p 0 <
        (cumulativeHeats (summary.map Interval.exheat)).getD k 0)
    (hneg : (cumulativeHeats (summary.map Interval.exheat)).getD p 0 ≤ 0) :
    calculate_pinch_utilities summary = .ok (canonicalPinchResult summary) := by
  set ex : List ℚ := summary.map Interval.exheat with hex
  obtain ⟨hp1, hp2, hp3, _, _⟩ := pinchScan_some_some ex _ p h1
  have hexlen : ex.length = summary.length := by simp [hex]
  have hn : 1 ≤ summary.length := by omega
  have hpn : p < summary.length := by
    rw [hexlen] at hp3
    omega
  set m : ℚ := (cumulativeHeats ex).getD p 0 with hm
  have hmtake : m = (ex.take (p+1)).sum := by
    rw [hm, cumulativeHeats_getD ex p (by omega)]
  -- the minimum of the cascade is attained at p
  have hmem_m : m ∈ cumulativeHeats ex := by
    rw [hm, List.getD_eq_getElem _ _ (by rw [cumulativeHeats_length]; omega)]
    exact List.getElem_mem _
  have hmin_all : ∀ x ∈ cumulativeHeats ex, m ≤ x := by
    intro x hxmem
    obtain ⟨k, hk, rfl⟩ := List.mem_iff_getElem.mp hxmem
    rw [cumulativeHeats_length, hexlen] at hk
    have := hmin k hk
    rwa [List.getD_eq_getElem _ _ (by rw [cumulativeHeats_length, hexlen]; omega)] at this
  have hlmin : listMin (cumulativeHeats ex) = m := by
    have h1' : listMin (cumulativeHeats ex) ≤ m := listMin_le _ m hmem_m
    have h2' : m ≤ listMin (cumulativeHeats ex) :=
      hmin_all _ (listMin_mem _ (by
        intro hnil
        have := cumulativeHeats_length ex
        rw [hnil] at this
        simp at this
        omega))
    exact le_antisymm h1' h2'
  have hmax : max 0 (-(listMin (cumulativeHeats ex))) = -m := by
    rw [hlmin]
    exact max_eq_right (by linarith)
  -- the adjusted cascade first reaches zero at index p
  have hfind : (List.range ex.length).find?
      (fun k => decide (max 0 (-(listMin (cumulativeHeats ex))) +
        (cumulativeHeats ex).getD k 0 = 0)) = some p := by
    apply find?_range_eq_some _ _ p (by omega)
    · rw [hmax, hm]
      simp
    · intro k hk
      rw [hmax]
      have hstrict := hfirst k hk
      simp only [decide_eq_false_iff_not]
      intro hzero
      have hkm : (cumulativeHeats ex).getD k 0 = m := by linarith
      linarith
  -- both sides computed
  unfold calculate_pinch_utilities canonicalPinchResult
  simp only [← hex, h1, hfind]
  have hsum_take_drop : (ex.take (p+1)).sum + (ex.drop (p+1)).sum = ex.sum :=
    List.sum_take_add_sum_drop ex (p+1)
  have hcum_last : (cumulativeHeats ex).getD (ex.length - 1) 0 = ex.sum := by
    rw [cumulativeHeats_getD ex _ (by omega)]
    have : ex.length - 1 + 1 = ex.length := by omega
    rw [this, List.take_length]
  have hdrop_nonneg : 0 ≤ (ex.drop (p+1)).sum := by
    have hlast := hmin (summary.length - 1) (by omega)
    rw [← hexlen, hcum_last] at hlast
    linarith [hsum_take_drop, hmtake]
  have habs_take : |(ex.take (p+1)).sum| = -m := by
    rw [← hmtake]
    exact abs_of_nonpos hneg
  have habs_drop : |(ex.drop (p+1)).sum| = -m + ex.sum := by
    rw [abs_of_nonneg hdrop_nonneg]
    linarith [hsum_take_drop, hmtake]
  rw [habs_take, habs_drop, hmax, hcum_last]

/-- C2 (amended): when the index `p` picked by the scan is a minimizer of the
running cascade and that minimum is non-positive, the returned hot-utility
duty re-verifies: cascading it from the top, the running total is never
negative after any interval. -/
theorem claim_C2_theorem (summary : List Interval) (p : ℕ)
    (h1 : pinchScan (summary.map Interval.exheat) (summary.length - 1) = some (some p))
    (hmin : ∀ k, k < summary.length →
      (cumulativeHeats (summary.map Interval.exheat)).getD p 0 ≤
        (cumulativeHeats (summary.map Interval.exheat)).getD k 0)
    (hneg : (cumulativeHeats (summary.map Interval.exheat)).getD p 0 ≤ 0)
    (pt : Option ℚ) (huq cuq : ℚ)
    (hres : calculate_pinch_utilities summary = .ok (pt, huq, cuq)) :
    ∀ k, k < summary.length →
      0 ≤ huq + ((summary.map Interval.exheat).take (k+1)).sum := by
  obtain ⟨hp1, hp2, hp3, _, _⟩ :=
    pinchScan_some_some (summary.map Interval.exheat) _ p h1
  simp only [List.length_map] at hp3
  have hpn : p < summary.length := by omega
  have hcode : calculate_pinch_utilities summary =
      .ok (some ((summary.getD p dummyInterval).tout),
        |((summary.map Interval.exheat).take (p+1)).sum|,
        |((summary.map Interval.exheat).drop (p+1)).sum|) := by
    unfold calculate_pinch_utilities
    simp only [h1]
  rw [hres] at hcode
  simp only [Except.ok.injEq, Prod.mk.injEq] at hcode
  obtain ⟨-, hhuq, -⟩ := hcode
  have hptake : (cumulativeHeats (summary.map Interval.exheat)).getD p 0 =
      ((summary.map Interval.exheat).take (p+1)).sum :=
    cumulativeHeats_getD _ p (by simpa using hpn)
  have habs : |((summary.map Interval.exheat).take (p+1)).sum| =
      -((summary.map Interval.exheat).take (p+1)).sum := by
    apply abs_of_nonpos
    rw [← hptake]
    exact hneg
  intro k hk
  have hk' : ((summary.map Interval.exheat).take (k+1)).sum =
      (cumulativeHeats (summary.map Interval.exheat)).getD k 0 :=
    (cumulativeHeats_getD _ k (by simpa using hk)).symm
  rw [hhuq, habs, hk']
  have := hmin k hk
  rw [hptake] at this
  linarith

/-! Concrete fixture refuting C1 and C2 as stated: two hot and two cold
streams whose summary has excess heats `[-50, 20, -10, 30]`.  The scan picks
`pinch_idx = 2` (the bottom-most interior non-positive entry), although the
cascade minimum is at index 0. -/

def hotC1 : List Stream := [⟨"H1", 1, 2, 90, 80⟩, ⟨"H2", 1, 3, 70, 60⟩]

def coldC1 : List Stream := [⟨"C1", 1, 5, 80, 90⟩, ⟨"C2", 1, 1, 60, 70⟩]

/-- C1 counterexample: on the summary produced from the valid streams
`hotC1`/`coldC1` with ΔTmin = 10 (excess heats `[-50, 20, -10, 30]`), the
source returns pinch 70, hot utility 40, cold utility 30, whereas the
canonical problem-table result is pinch 90, hot utility 50 = max(0, 50),
cold utility 40 — the function does NOT return the canonical result. -/
theorem claim_C1_counterexample :
    calculate_pinch_utilities (calculate_summary_table hotC1 coldC1 10)
        = .ok (some 70, 40, 30)
    ∧ canonicalPinchResult (calculate_summary_table hotC1 coldC1 10) = (some 90, 50, 40)
    ∧ calculate_pinch_utilities (calculate_summary_table hotC1 coldC1 10)
        ≠ .ok (canonicalPinchResult (calculate_summary_table hotC1 coldC1 10)) := by
  have e1 : calculate_pinch_utilities (calculate_summary_table hotC1 coldC1 10)
      = .ok (some 70, 40, 30) := by
    norm_num [calculate_pinch_utilities, calculate_summary_table, calculate_intervals,
      hotC1, coldC1, uniqueAsc, List.insertionSort, List.orderedInsert, List.dedup,
      buildRows, exheatFor, hotIdxFor, coldIdxFor, hotMember, coldMember,
      List.range, List.range.loop, dummyStream, List.filter, pinchScan]
  have e2 : canonicalPinchResult (calculate_summary_table hotC1 coldC1 10)
      = (some 90, 50, 40) := by
    norm_num [canonicalPinchResult, cumulativeHeats, listMin, calculate_summary_table,
      calculate_intervals, hotC1, coldC1, uniqueAsc, List.insertionSort,
      List.orderedInsert, List.dedup, buildRows, exheatFor, hotIdxFor, coldIdxFor,
      hotMember, coldMember, List.range, List.range.loop, dummyStream, List.filter,
      List.find?, dummyInterval]
  exact ⟨e1, e2, by rw [e1, e2]; simp⟩

/-- Fixture for the C1/C2 witnesses: a summary with excess heats `[1, -2, 3]`,
where the scanned pinch index 1 is also the first (strict) minimizer of the
cascade. -/
def summaryW : List Interval :=
  [⟨"I-1", 100, 90, 1, 1, [], []⟩, ⟨"I-2", 90, 80, -2, -1, [], []⟩,
    ⟨"I-3", 80, 70, 3, 2, [], []⟩]

theorem claim_C1_witness :
    calculate_pinch_utilities summaryW = .ok (canonicalPinchResult summaryW) :=
  claim_C1_theorem summaryW 1
    (by norm_num [summaryW, pinchScan])
    (by
      intro k hk
      have h3 : summaryW.length = 3 := rfl
      rw [h3] at hk
      interval_cases k <;> norm_num [summaryW, cumulativeHeats, List.range, List.range.loop])
    (by
      intro k hk
      interval_cases k
      norm_num [summaryW, cumulativeHeats, List.range, List.range.loop])
    (by norm_num [summaryW, cumulativeHeats, List.range, List.range.loop])

/-- C2 counterexample: on the same fixture the returned hot utility is 40, but
cascading 40 from the top goes negative after the first interval
(40 + (-50) = -10 < 0): the re-verification of §8 fails on the source. -/
theorem claim_C2_counterexample :
    calculate_pinch_utilities (calculate_summary_table hotC1 coldC1 10)
        = .ok (some 70, 40, 30)
    ∧ 40 + (((calculate_summary_table hotC1 coldC1 10).map Interval.exheat).take 1).sum
        < 0 := by
  constructor
  · norm_num [calculate_pinch_utilities, calculate_summary_table, calculate_intervals,
      hotC1, coldC1, uniqueAsc, List.insertionSort, List.orderedInsert, List.dedup,
      buildRows, exheatFor, hotIdxFor, coldIdxFor, hotMember, coldMember,
      List.range, List.range.loop, dummyStream, List.filter, pinchScan]
  · norm_num [calculate_summary_table, calculate_intervals,
      hotC1, coldC1, uniqueAsc, List.insertionSort, List.orderedInsert, List.dedup,
      buildRows, exheatFor, hotIdxFor, coldIdxFor, hotMember, coldMember,
      List.range, List.range.loop, dummyStream, List.filter]

theorem claim_C2_witness :
    0 ≤ 1 + ((summaryW.map Interval.exheat).take (0+1)).sum :=
  claim_C2_theorem summaryW 1
    (by norm_num [summaryW, pinchScan])
    (by
      intro k hk
      have h3 : summaryW.length = 3 := rfl
      rw [h3] at hk
      interval_cases k <;> norm_num [summaryW, cumulativeHeats, List.range, List.range.loop])
    (by norm_num [summaryW, cumulativeHeats, List.range, List.range.loop])
    (some 80) 1 3
    (by norm_num [calculate_pinch_utilities, summaryW, pinchScan])
    0 (by norm_num [summaryW])

/-! ## C3: the reference scenario -/

def hotC3 : List Stream := [⟨"H1", 2, 1, 200, 100⟩]

def coldC3 : List Stream := [⟨"C1", 2, 1, 50, 150⟩]

def hotFilmC3 : List FilmCoef := [⟨"H1", some 1⟩]

def coldFilmC3 : List FilmCoef := [⟨"C1", some 1⟩]

/-- C3 counterexample: for one hot stream 200→100 with mf·cp = 2, one cold
stream 50→150 with mf·cp = 2 and ΔTmin = 10 the pipeline does NOT report a
pinch at 110: the excess heats are `[80, 0, -80]`, the scan hits index 1 with
the last interval also non-positive, and the source reports NO pinch. -/
theorem claim_C3_counterexample :
    calculate_pinch_utilities (calculate_summary_table hotC3 coldC3 10) ≠
      .ok (some 110, 0, 0) := by
  have e : calculate_pinch_utilities (calculate_summary_table hotC3 coldC3 10)
      = .ok (none, 0, 0) := by
    norm_num [calculate_pinch_utilities, calculate_summary_table, calculate_intervals,
      hotC3, coldC3, uniqueAsc, List.insertionSort, List.orderedInsert, List.dedup,
      buildRows, exheatFor, hotIdxFor, coldIdxFor, hotMember, coldMember,
      List.range, List.range.loop, dummyStream, List.filter, pinchScan]
  rw [e]
  simp

/-- C3 (amended): on the reference scenario the source reports an undefined
pinch (NaN), hot-utility duty 0, cold-utility duty 0, and — because the
no-pinch partition puts every stream above the pinch — a total minimum
exchanger count of 2 (2 above + 0 below), not 1. -/
theorem claim_C3_theorem :
    calculate_pinch_utilities (calculate_summary_table hotC3 coldC3 10) = .ok (none, 0, 0)
    ∧ calculate_minimum_exchangers
          (pinch_streams_tables hotC3 coldC3 10 none hotFilmC3 coldFilmC3).1
          (pinch_streams_tables hotC3 coldC3 10 none hotFilmC3 coldFilmC3).2.1 "above"
        + calculate_minimum_exchangers
          (pinch_streams_tables hotC3 coldC3 10 none hotFilmC3 coldFilmC3).2.2.1
          (pinch_streams_tables hotC3 coldC3 10 none hotFilmC3 coldFilmC3).2.2.2 "below"
      = 2 := by
  constructor
  · norm_num [calculate_pinch_utilities, calculate_summary_table, calculate_intervals,
      hotC3, coldC3, uniqueAsc, List.insertionSort, List.orderedInsert, List.dedup,
      buildRows, exheatFor, hotIdxFor, coldIdxFor, hotMember, coldMember,
      List.range, List.range.loop, dummyStream, List.filter, pinchScan]
  · simp only [pinch_streams_tables, calculate_minimum_exchangers, hotC3, coldC3,
      hotFilmC3, coldFilmC3, streamNoCoef]
    decide

/-! ## C5: the input-validation prelude of calculate_summary_table -/

/-- C5 counterexample: with ΔTmin = +infinity and non-empty stream tables the
validation `dt <= 0 or np.isnan(dt)` does not fire (inf is neither), so
`calculate_summary_table` returns normally instead of raising. -/
theorem claim_C5_counterexample :
    (calculate_summary_tableF hotC3 coldC3 FloatVal.inf).isOk = true := by
  rfl

/-- C5 (amended): `calculate_summary_table` raises its invalid-input error iff
either stream table is empty, or ΔTmin ≤ 0 (including -infinity), or ΔTmin is
NaN; equivalently it returns normally iff both tables are non-empty and ΔTmin
is a finite positive value OR +infinity (which the validation accepts). -/
theorem claim_C5_theorem (hot cold : List Stream) (dt : FloatVal) :
    (calculate_summary_tableF hot cold dt).isOk = true ↔
      (hot ≠ [] ∧ cold ≠ [] ∧
        (dt = FloatVal.inf ∨ ∃ q, dt = FloatVal.fin q ∧ 0 < q)) := by
  unfold calculate_summary_tableF
  by_cases h1 : hot = [] ∨ cold = []
  · rcases h1 with h | h <;> simp [h, Except.isOk, Except.toBool]
  · push_neg at h1
    rw [if_neg (by
      rintro (h | h)
      · exact h1.1 h
      · exact h1.2 h)]
    cases dt with
    | fin q =>
      by_cases hq : q ≤ 0
      · rw [if_pos (Or.inl (by simp [fle, hq]))]
        simp only [Except.isOk, Except.toBool]
        constructor
        · intro h; cases h
        · rintro ⟨-, -, h | ⟨q', hq', hpos⟩⟩
          · cases h
          · rw [FloatVal.fin.injEq] at hq'
            subst hq'
            linarith
      · rw [if_neg (by simp [fle, fisnan, hq])]
        simp only [Except.isOk, Except.toBool, true_iff]
        push_neg at hq
        exact ⟨h1.1, h1.2, Or.inr ⟨q, rfl, hq⟩⟩
    | nan => simp [fle, fisnan, Except.isOk, Except.toBool]
    | inf => simp [fle, fisnan, Except.isOk, Except.toBool, h1.1, h1.2]
    | ninf => simp [fle, fisnan, Except.isOk, Except.toBool]

/-! ## C4: eager recomputation and the film-coefficient gap -/

/-- The derived fields of a `SetupState`: everything `_update_summary` assigns
after its computations complete (lines 417-447), except the hot-interval
ladder, which is assigned earlier (line 386) and has its own equation in the
theorem. -/
structure DerivedFields where
  summary : List Interval
  pinch : Option ℚ
  hotUtilReq : ℚ
  coldUtilReq : ℚ
  hotCompositeData : List CompositePoint
  coldCompositeData : List CompositePoint
  compositeSegmentsData : List SegmentRow
  areaNetwork : Option ℚ
  hotAbove : List StreamFilm
  coldAbove : List StreamFilm
  hotBelow : List StreamFilm
  coldBelow : List StreamFilm
  heatFlow : List HeatFlowRow
  aboveMinExchangers : ℤ
  belowMinExchangers : ℤ
deriving Repr, DecidableEq

def derivedOf (s : SetupState) : DerivedFields :=
  ⟨s.summary, s.pinch, s.hotUtilReq, s.coldUtilReq, s.hotCompositeData,
    s.coldCompositeData, s.compositeSegmentsData, s.areaNetwork, s.hotAbove,
    s.coldAbove, s.hotBelow, s.coldBelow, s.heatFlow, s.aboveMinExchangers,
    s.belowMinExchangers⟩

def clearedDerived : DerivedFields :=
  ⟨[], none, 0, 0, [], [], [], none, [], [], [], [], [],
    calculate_minimum_exchangers [] [] "above",
    calculate_minimum_exchangers [] [] "below"⟩

/-- The derived state as a pure function of the inputs alone (`none` when the
recompute raises — the pinch-scan NameError or the segment stream-search
ValueError — in which case `_update_summary` dies having assigned only the
hot-interval ladder). -/
def derivedPure (ln : ℚ → ℚ) (hot cold : List Stream) (dt : Option ℚ)
    (hf cf : List FilmCoef) : Option DerivedFields :=
  match dt with
  | none => some clearedDerived
  | some dtv =>
    if hot = [] ∨ cold = [] ∨ dtv ≤ 0 then some clearedDerived
    else
      let summary := calculate_summary_table hot cold dtv
      match calculate_pinch_utilities summary with
      | .error _ => none
      | .ok (pinch, hur, cur) =>
        let curves := calculate_composite_enthalpy hot cold dtv hur cur
          hf cf summary
        match calculate_segments_data ln hot cold dtv curves.1 curves.2
            hf cf summary with
        | .error _ => none
        | .ok segments =>
          let parts := pinch_streams_tables hot cold dtv pinch hf cf
          match calculate_heat_flows summary with
          | .error _ => none
          | .ok hfl =>
            some ⟨summary, pinch, hur, cur, curves.1, curves.2, segments,
              some (networkArea segments), parts.1, parts.2.1, parts.2.2.1,
              parts.2.2.2, hfl,
              calculate_minimum_exchangers parts.1 parts.2.1 "above",
              calculate_minimum_exchangers parts.2.2.1 parts.2.2.2 "below"⟩

/-- The hot-interval ladder after `_update_summary`: reassigned (line 386)
exactly when the inputs pass the summary validation — even if a later
computation of the recompute raises — and kept otherwise (the `except`
branch never touches it). -/
def hotIntervalPure (s : SetupState) : List ℚ :=
  match s.dt with
  | none => s.hotInterval
  | some dtv =>
    if s.hot = [] ∨ s.cold = [] ∨ dtv ≤ 0 then s.hotInterval
    else (calculate_intervals s.hot s.cold dtv).1

theorem updateSummary_hotInterval (ln : ℚ → ℚ) (s : SetupState) :
    (updateSummary ln s).hotInterval = hotIntervalPure s := by
  unfold updateSummary hotIntervalPure
  cases s.dt with
  | none => rfl
  | some dtv =>
    dsimp only []
    by_cases hcond : s.hot = [] ∨ s.cold = [] ∨ dtv ≤ 0
    · rw [if_pos hcond, if_pos hcond]
      rfl
    · rw [if_neg hcond, if_neg hcond]
      cases hres : calculate_pinch_utilities (calculate_summary_table s.hot s.cold dtv) with
      | error e => rfl
      | ok r =>
        obtain ⟨pinch, hur, cur⟩ := r
        dsimp only []
        cases hseg : calculate_segments_data ln s.hot s.cold dtv
            (calculate_composite_enthalpy s.hot s.cold dtv hur cur
              s.hotFilmCoef s.coldFilmCoef
              (calculate_summary_table s.hot s.cold dtv)).1
            (calculate_composite_enthalpy s.hot s.cold dtv hur cur
              s.hotFilmCoef s.coldFilmCoef
              (calculate_summary_table s.hot s.cold dtv)).2
            s.hotFilmCoef s.coldFilmCoef
            (calculate_summary_table s.hot s.cold dtv) with
        | error e => rfl
        | ok segs =>
          cases hhf : calculate_heat_flows (calculate_summary_table s.hot s.cold dtv) with
          | error e => rfl
          | ok hfv => rfl

theorem updateSummary_derived (ln : ℚ → ℚ) (s : SetupState) :
    (match derivedPure ln s.hot s.cold s.dt s.hotFilmCoef s.coldFilmCoef with
      | some d => derivedOf (updateSummary ln s) = d
          ∧ (updateSummary ln s).designAbove = []
          ∧ (updateSummary ln s).designBelow = []
      | none => updateSummary ln s = { s with hotInterval := hotIntervalPure s }) := by
  unfold updateSummary derivedPure hotIntervalPure
  cases s.dt with
  | none => exact ⟨rfl, rfl, rfl⟩
  | some dtv =>
    dsimp only []
    by_cases hcond : s.hot = [] ∨ s.cold = [] ∨ dtv ≤ 0
    · rw [if_pos hcond, if_pos hcond, if_pos hcond]
      exact ⟨rfl, rfl, rfl⟩
    · rw [if_neg hcond, if_neg hcond, if_neg hcond]
      cases hres : calculate_pinch_utilities (calculate_summary_table s.hot s.cold dtv) with
      | error e => rfl
      | ok r =>
        obtain ⟨pinch, hur, cur⟩ := r
        dsimp only []
        cases hseg : calculate_segments_data ln s.hot s.cold dtv
            (calculate_composite_enthalpy s.hot s.cold dtv hur cur
              s.hotFilmCoef s.coldFilmCoef
              (calculate_summary_table s.hot s.cold dtv)).1
            (calculate_composite_enthalpy s.hot s.cold dtv hur cur
              s.hotFilmCoef s.coldFilmCoef
              (calculate_summary_table s.hot s.cold dtv)).2
            s.hotFilmCoef s.coldFilmCoef
            (calculate_summary_table s.hot s.cold dtv) with
        | error e => rfl
        | ok segs =>
          cases hhf : calculate_heat_flows (calculate_summary_table s.hot s.cold dtv) with
          | error e => rfl
          | ok hfv => exact ⟨rfl, rfl, rfl⟩

/-- C4 (amended): assigning the hot table, cold table, or ΔTmin runs the full
`_update_summary` synchronously before returning; the hot temperature ladder
is recomputed from the current inputs whenever they pass validation, and
whenever the recompute completes (no pinch-scan NameError, no segment
stream-search ValueError) every derived property — summary, pinch, utility
requirements, composite enthalpy curves, segment table, network area,
heat-flow cascade, pinch partitions and minimum-exchanger counts — equals its
pure recomputation from the current inputs alone and both ledgers are reset
to empty, while on such a raise nothing beyond the ladder has been assigned;
but assigning either film-coefficient table triggers NO recomputation: the
ladder, every derived field and both ledgers are left exactly as they were. -/
theorem claim_C4_theorem :
    ∀ (ln : ℚ → ℚ) (s : SetupState) (hv cv : List Stream) (dv : Option ℚ)
      (hf cf : List FilmCoef),
      (s.setHot ln hv = updateSummary ln { s with hot := hv }
        ∧ s.setCold ln cv = updateSummary ln { s with cold := cv }
        ∧ s.setDt ln dv = updateSummary ln { s with dt := dv })
      ∧ (updateSummary ln s).hotInterval = hotIntervalPure s
      ∧ (match derivedPure ln s.hot s.cold s.dt s.hotFilmCoef s.coldFilmCoef with
         | some d => derivedOf (updateSummary ln s) = d
             ∧ (updateSummary ln s).designAbove = []
             ∧ (updateSummary ln s).designBelow = []
         | none => updateSummary ln s = { s with hotInterval := hotIntervalPure s })
      ∧ (derivedOf (s.setHotFilmCoef hf) = derivedOf s
        ∧ (s.setHotFilmCoef hf).hotInterval = s.hotInterval
        ∧ (s.setHotFilmCoef hf).designAbove = s.designAbove
        ∧ (s.setHotFilmCoef hf).designBelow = s.designBelow)
      ∧ (derivedOf (s.setColdFilmCoef cf) = derivedOf s
        ∧ (s.setColdFilmCoef cf).hotInterval = s.hotInterval
        ∧ (s.setColdFilmCoef cf).designAbove = s.designAbove
        ∧ (s.setColdFilmCoef cf).designBelow = s.designBelow) := by
  intro ln s hv cv dv hf cf
  exact ⟨⟨rfl, rfl, rfl⟩, updateSummary_hotInterval ln s, updateSummary_derived ln s,
    ⟨rfl, rfl, rfl, rfl⟩, ⟨rfl, rfl, rfl, rfl⟩⟩

def recC4 : ExchangerRecord := default

def sC4 : SetupState :=
  ⟨[⟨"H1", 2, 1, 200, 100⟩], [⟨"C1", 2, 1, 50, 150⟩], some 10,
    [⟨"H1", some 1⟩], [⟨"C1", some 1⟩], [], none, 0, 0, [], [], [], [], 0, 0,
    [recC4], [], [], [], [], [], [], none⟩

/-- C4 counterexample: on a state whose above-pinch ledger holds one
exchanger, assigning the cold film-coefficient table (an input mutation)
leaves that ledger untouched: the mutating call returns without resetting the
branch design ledgers, contradicting the claim. -/
theorem claim_C4_counterexample :
    (sC4.setColdFilmCoef [⟨"C1", some 2⟩]).designAbove ≠ [] := by
  simp [SetupState.setColdFilmCoef, sC4]

/-! ## C7: split_stream -/

theorem find?_id_eq_of_nodup (df : List StreamFilm) (st : StreamFilm)
    (hmem : st ∈ df) (hnodup : (df.map StreamFilm.id).Nodup) :
    df.find? (fun r => decide (r.id = st.id)) = some st := by
  induction df with
  | nil => cases hmem
  | cons x xs ih =>
    rcases List.mem_cons.mp hmem with rfl | hmem'
    · exact List.find?_cons_of_pos _ (by simp)
    · have hx : x.id ≠ st.id := by
        intro he
        have : st.id ∈ xs.map StreamFilm.id := List.mem_map.mpr ⟨st, hmem', rfl⟩
        rw [List.map_cons] at hnodup
        exact (List.nodup_cons.mp hnodup).1 (he ▸ this)
      rw [List.find?_cons_of_neg _ (by simp [hx])]
      exact ih hmem' (by
        rw [List.map_cons] at hnodup
        exact (List.nodup_cons.mp hnodup).2)

/-- C7 (amended): `split_stream` rejects the request — raising, with ledgers
and partitions unchanged — iff the supplied flowrates do not sum exactly to
the split stream's flow (or the stream id is absent); there is NO restriction
on the number of flowrates. On success it removes the stream from its
partition table, appends sub-streams with identical properties whose ids
carry the alphabetic suffix and whose flows are the supplied ones, and resets
both branch ledgers to empty. -/
theorem claim_C7_theorem (s : SetupState) (desType streamType streamId : String)
    (flows : List ℚ) (st : StreamFilm)
    (hmem : st ∈ targetPartition s desType streamType)
    (hid : st.id = streamId)
    (hnodup : ((targetPartition s desType streamType).map StreamFilm.id).Nodup) :
    ((split_stream s desType streamType streamId flows).2 = some SplitError.valueError
        ↔ flows.sum ≠ st.flow)
    ∧ ((split_stream s desType streamType streamId flows).2 ≠ none →
        (split_stream s desType streamType streamId flows).1 = s)
    ∧ (flows.sum = st.flow →
        (split_stream s desType streamType streamId flows).1 =
          { setTargetPartition s desType streamType
              ((targetPartition s desType streamType).filter
                  (fun r => decide (r.id ≠ streamId))
                ++ flows.mapIdx (fun i fl =>
                  { st with id := streamId ++ "_" ++ splitSuffix i, flow := fl })) with
            designAbove := [], designBelow := [] }
        ∧ (split_stream s desType streamType streamId flows).2 = none) := by
  subst hid
  have hmem' : st.id ∈ (targetPartition s desType streamType).map StreamFilm.id :=
    List.mem_map.mpr ⟨st, hmem, rfl⟩
  have hfind := find?_id_eq_of_nodup _ st hmem hnodup
  unfold split_stream
  rw [if_neg (by simpa using hmem'), hfind]
  simp only [Option.getD_some]
  by_cases hsum : flows.sum = st.flow
  · rw [if_neg (by simp [hsum])]
    refine ⟨by simp [hsum], by simp, fun _ => ⟨rfl, rfl⟩⟩
  · rw [if_pos (by simpa using hsum)]
    exact ⟨by simp [hsum], fun _ => rfl, fun h => absurd h hsum⟩

def stC7 : StreamFilm := ⟨"S1", 10, 1, 100, 50, some 1⟩

def sC7 : SetupState :=
  ⟨[], [], none, [], [], [], none, 0, 0, [stC7], [], [], [], 0, 0, [], [],
    [], [], [], [], [], none⟩

theorem claim_C7_witness :
    (split_stream sC7 "abv" "hot" "S1" [4, 6]).2 = none
    ∧ (split_stream sC7 "abv" "hot" "S1" [4, 6]).1.designAbove = [] := by
  obtain ⟨h1, h2, h3⟩ := claim_C7_theorem sC7 "abv" "hot" "S1" [4, 6] stC7
    (by simp [targetPartition, sC7]) rfl (by simp [targetPartition, sC7])
  have hs := h3 (by norm_num [stC7])
  exact ⟨hs.2, by rw [hs.1]⟩

/-- C7 counterexample: a split into a single sub-stream (N = 1) whose single
flowrate equals the stream's flow is ACCEPTED by `split_stream` (no error is
raised, the stream is replaced by the sub-stream "S1_A"): the claimed
rejection of counts outside 2..5 does not exist in the source. -/
theorem claim_C7_counterexample :
    (split_stream sC7 "abv" "hot" "S1" [10]).2 = none
    ∧ (split_stream sC7 "abv" "hot" "S1" [10]).1.hotAbove
        = [⟨"S1_A", 10, 1, 100, 50, some 1⟩] := by
  have hsuf : "S1" ++ "_" ++ splitSuffix 0 = "S1_A" := rfl
  constructor <;>
    norm_num [split_stream, targetPartition, setTargetPartition, sC7, stC7,
      hsuf, List.find?, List.filter, List.mapIdx_cons, List.mapIdx_nil]

/-! ## C10: atomicity of add_exchanger and add_utility_exchanger -/

/-- C10: both exchanger-adding methods are atomic on failure: every raise
happens before any assignment to the state, so on any error the state is
exactly as before the call (ledgers and partitions included), and on success
the sole change is the new record appended to the selected branch ledger. -/
theorem claim_C10_theorem :
    ∀ (ln : ℚ → ℚ) (cbm : CbmFn) (s : SetupState)
      (desType exId interval streamSource streamDest utilityType streamId : String)
      (duty utIn utOut utCoef pressure factor : ℚ) (exType : ExchangerType)
      (arrangement : ArrangementType) (shellMat tubeMat : MaterialType),
      (((add_exchanger ln cbm s desType exId duty interval streamSource streamDest
            exType arrangement shellMat tubeMat pressure factor).2.isSome = true →
          (add_exchanger ln cbm s desType exId duty interval streamSource streamDest
            exType arrangement shellMat tubeMat pressure factor).1 = s)
        ∧ ((add_exchanger ln cbm s desType exId duty interval streamSource streamDest
            exType arrangement shellMat tubeMat pressure factor).2 = none →
          ∃ row, (add_exchanger ln cbm s desType exId duty interval streamSource
              streamDest exType arrangement shellMat tubeMat pressure factor).1 =
            (if desType = "abv" then { s with designAbove := s.designAbove ++ [row] }
              else { s with designBelow := s.designBelow ++ [row] })))
      ∧ (((add_utility_exchanger ln cbm s desType exId duty interval utilityType
            streamId utIn utOut utCoef exType arrangement shellMat tubeMat pressure
            factor).2.isSome = true →
          (add_utility_exchanger ln cbm s desType exId duty interval utilityType
            streamId utIn utOut utCoef exType arrangement shellMat tubeMat pressure
            factor).1 = s)
        ∧ ((add_utility_exchanger ln cbm s desType exId duty interval utilityType
            streamId utIn utOut utCoef exType arrangement shellMat tubeMat pressure
            factor).2 = none →
          ∃ row, (add_utility_exchanger ln cbm s desType exId duty interval
              utilityType streamId utIn utOut utCoef exType arrangement shellMat
              tubeMat pressure factor).1 =
            (if desType = "abv" then { s with designAbove := s.designAbove ++ [row] }
              else { s with designBelow := s.designBelow ++ [row] }))) := by
  intro ln cbm s desType exId interval streamSource streamDest utilityType streamId
    duty utIn utOut utCoef pressure factor exType arrangement shellMat tubeMat
  constructor
  · cases h : addExchangerRow ln cbm s desType exId duty interval streamSource
        streamDest exType arrangement shellMat tubeMat pressure factor with
    | error e =>
      have he : add_exchanger ln cbm s desType exId duty interval streamSource
          streamDest exType arrangement shellMat tubeMat pressure factor
          = (s, some ()) := by
        unfold add_exchanger
        rw [h]
      constructor
      · intro _
        rw [he]
      · intro hnone
        rw [he] at hnone
        simp at hnone
    | ok row =>
      have he : add_exchanger ln cbm s desType exId duty interval streamSource
          streamDest exType arrangement shellMat tubeMat pressure factor
          = (if desType = "abv"
              then ({ s with designAbove := s.designAbove ++ [row] }, (none : Option Unit))
              else ({ s with designBelow := s.designBelow ++ [row] }, none)) := by
        unfold add_exchanger
        rw [h]
      constructor
      · intro hsome
        rw [he] at hsome
        split_ifs at hsome <;> simp at hsome
      · intro _
        refine ⟨row, ?_⟩
        rw [he]
        split_ifs <;> rfl
  · cases h : addUtilityExchangerRow ln cbm s desType exId duty interval utilityType
        streamId utIn utOut utCoef exType arrangement shellMat tubeMat
        pressure factor with
    | error e =>
      have he : add_utility_exchanger ln cbm s desType exId duty interval utilityType
          streamId utIn utOut utCoef exType arrangement shellMat tubeMat pressure
          factor = (s, some ()) := by
        unfold add_utility_exchanger
        rw [h]
      constructor
      · intro _
        rw [he]
      · intro hnone
        rw [he] at hnone
        simp at hnone
    | ok row =>
      have he : add_utility_exchanger ln cbm s desType exId duty interval utilityType
          streamId utIn utOut utCoef exType arrangement shellMat tubeMat pressure
          factor
          = (if desType = "abv"
              then ({ s with designAbove := s.designAbove ++ [row] }, (none : Option Unit))
              else ({ s with designBelow := s.designBelow ++ [row] }, none)) := by
        unfold add_utility_exchanger
        rw [h]
      constructor
      · intro hsome
        rw [he] at hsome
        split_ifs at hsome <;> simp at hsome
      · intro _
        refine ⟨row, ?_⟩
        rw [he]
        split_ifs <;> rfl

theorem claim_C10_witness :
    (add_exchanger (fun _ => 0) (fun _ _ _ _ _ _ => .error ()) (default : SetupState)
        "abv" "E1" 0 "I-1" "H" "C" ExchangerType.fixedTube ArrangementType.shellTube
        MaterialType.cs MaterialType.cs 1 1).1 = (default : SetupState)
    ∧ (add_utility_exchanger (fun _ => 0) (fun _ _ _ _ _ _ => .error ())
        (default : SetupState) "abv" "E1" 0 "I-1" "hot" "C" 1 1 1
        ExchangerType.fixedTube ArrangementType.shellTube MaterialType.cs
        MaterialType.cs 1 1).1 = (default : SetupState) :=
  ⟨((claim_C10_theorem (fun _ => 0) (fun _ _ _ _ _ _ => .error ())
      (default : SetupState) "abv" "E1" "I-1" "H" "C" "hot" "C" 0 1 1 1 1 1
      ExchangerType.fixedTube ArrangementType.shellTube MaterialType.cs
      MaterialType.cs).1.1 (by rfl)),
    ((claim_C10_theorem (fun _ => 0) (fun _ _ _ _ _ _ => .error ())
      (default : SetupState) "abv" "E1" "I-1" "H" "C" "hot" "C" 0 1 1 1 1 1
      ExchangerType.fixedTube ArrangementType.shellTube MaterialType.cs
      MaterialType.cs).2.1 (by rfl))⟩

/-! ## C8: the excess-heat sum telescopes to the net enthalpy imbalance -/

theorem buildRows_map_exheat (hot cold : List Stream) (dt : ℚ) (L : List ℚ) :
    ∀ (fuel i : ℕ) (cum : ℚ),
      (buildRows hot cold dt L fuel i cum).map Interval.exheat =
        (List.range fuel).map
          (fun j => exheatFor hot cold dt (L.getD (i+j) 0) (L.getD (i+j+1) 0)) := by
  intro fuel
  induction fuel with
  | zero => intro i cum; simp [buildRows]
  | succ fuel ih =>
    intro i cum
    rw [buildRows, List.range_succ_eq_map]
    simp only [List.map_cons, List.map_map]
    congr 1
    rw [ih (i+1) _]
    apply List.map_congr_left
    intro j _
    simp only [Function.comp_apply, Nat.succ_eq_add_one]
    ring_nf

theorem listMapRange_sum (m : ℕ) (f : ℕ → ℚ) :
    ((List.range m).map f).sum = ∑ j ∈ Finset.range m, f j := by
  induction m with
  | zero => simp
  | succ m ih =>
    rw [List.range_succ, List.map_append, List.sum_append, Finset.sum_range_succ, ih]
    simp

theorem filter_map_sum_eq (l : List ℕ) (pred : ℕ → Bool) (g : ℕ → ℚ) :
    ((l.filter pred).map g).sum = (l.map (fun s => if pred s then g s else 0)).sum := by
  induction l with
  | nil => rfl
  | cons x xs ih =>
    by_cases h : pred x
    · simp [List.filter_cons, h, ih]
    · simp [List.filter_cons, h, ih]

theorem sum_range_getD (l : List Stream) (f : Stream → ℚ) :
    ∑ s ∈ Finset.range l.length, f (l.getD s dummyStream) = (l.map f).sum := by
  induction l with
  | nil => simp
  | cons x xs ih =>
    rw [List.length_cons, Finset.sum_range_succ']
    simp only [List.getD_cons_succ, List.getD_cons_zero, List.map_cons, List.sum_cons]
    rw [ih]
    ring

theorem sorted_gt_getD_lt (L : List ℚ) (hL : L.Pairwise (· > ·)) (i j : ℕ)
    (hij : i < j) (hj : j < L.length) : L.getD j 0 < L.getD i 0 := by
  rw [List.getD_eq_getElem L 0 (show j < L.length from hj),
    List.getD_eq_getElem L 0 (show i < L.length by omega)]
  exact List.pairwise_iff_getElem.mp hL i j (by omega) hj hij

theorem sorted_gt_getD_le (L : List ℚ) (hL : L.Pairwise (· > ·)) (i j : ℕ)
    (hij : i ≤ j) (hj : j < L.length) : L.getD j 0 ≤ L.getD i 0 := by
  rcases Nat.eq_or_lt_of_le hij with rfl | h
  · exact le_rfl
  · exact le_of_lt (sorted_gt_getD_lt L hL i j h hj)

theorem member_window (L : List ℚ) (hL : L.Pairwise (· > ·)) (ix iy : ℕ)
    (hix : ix < L.length) (hiy : iy < L.length) (hlt : ix < iy)
    (j : ℕ) (hj : j + 1 < L.length) :
    (L.getD ix 0 = L.getD j 0 ∨ L.getD iy 0 = L.getD (j+1) 0 ∨
      (L.getD j 0 ≤ L.getD ix 0 ∧ L.getD iy 0 ≤ L.getD (j+1) 0))
    ↔ (ix ≤ j ∧ j < iy) := by
  have hidx_le : ∀ a b : ℕ, a < L.length → L.getD b 0 ≤ L.getD a 0 → a ≤ b := by
    intro a b ha hle
    by_contra hab
    push_neg at hab
    exact absurd hle (not_le.mpr (sorted_gt_getD_lt L hL b a hab ha))
  have hidx_eq : ∀ a b : ℕ, a < L.length → b < L.length →
      L.getD a 0 = L.getD b 0 → a = b := by
    intro a b ha hb he
    rcases Nat.lt_trichotomy a b with h | h | h
    · exact absurd he (ne_of_gt (sorted_gt_getD_lt L hL a b h hb))
    · exact h
    · exact absurd he (ne_of_lt (sorted_gt_getD_lt L hL b a h ha))
  constructor
  · rintro (h | h | ⟨hA, hB⟩)
    · have hixj : ix = j := hidx_eq ix j hix (by omega) h
      subst hixj
      exact ⟨le_rfl, hlt⟩
    · have hiyj : iy = j + 1 := hidx_eq iy (j+1) hiy hj h
      subst hiyj
      exact ⟨by omega, by omega⟩
    · constructor
      · exact hidx_le ix j hix hA
      · have := hidx_le (j+1) iy hj hB
        omega
  · rintro ⟨h1, h2⟩
    refine Or.inr (Or.inr ⟨?_, ?_⟩)
    · exact sorted_gt_getD_le L hL ix j h1 (by omega)
    · exact sorted_gt_getD_le L hL (j+1) iy (by omega) hiy

theorem telescope_window (L : List ℚ) (ix iy : ℕ) (hlt : ix < iy)
    (hiy : iy < L.length) :
    ∑ j ∈ Finset.range (L.length - 1),
        (if ix ≤ j ∧ j < iy then L.getD j 0 - L.getD (j+1) 0 else 0)
      = L.getD ix 0 - L.getD iy 0 := by
  have hfil : Finset.filter (fun j => ix ≤ j ∧ j < iy) (Finset.range (L.length - 1))
      = Finset.Ico ix iy := by
    ext j
    simp only [Finset.mem_filter, Finset.mem_range, Finset.mem_Ico]
    omega
  rw [← Finset.sum_filter, hfil, Finset.sum_Ico_eq_sum_range]
  have hshift : ∀ j, ix + j + 1 = ix + (j + 1) := by omega
  have : ∀ j ∈ Finset.range (iy - ix),
      L.getD (ix + j) 0 - L.getD (ix + j + 1) 0
        = (fun k => L.getD (ix + k) 0) j - (fun k => L.getD (ix + k) 0) (j + 1) := by
    intro j _
    simp only []
    rw [hshift j]
  rw [Finset.sum_congr rfl this, Finset.sum_range_sub' (fun k => L.getD (ix + k) 0)]
  have e2 : ix + (iy - ix) = iy := by omega
  simp [e2]

theorem stream_contrib (L : List ℚ) (hL : L.Pairwise (· > ·)) (x y : ℚ)
    (hx : x ∈ L) (hy : y ∈ L) (hxy : y < x) :
    ∑ j ∈ Finset.range (L.length - 1),
      (if (x = L.getD j 0 ∨ y = L.getD (j+1) 0 ∨
          (L.getD j 0 ≤ x ∧ y ≤ L.getD (j+1) 0))
        then L.getD j 0 - L.getD (j+1) 0 else 0) = x - y := by
  obtain ⟨ix, hix, hxe⟩ := List.mem_iff_getElem.mp hx
  obtain ⟨iy, hiy, hye⟩ := List.mem_iff_getElem.mp hy
  have hgx : L.getD ix 0 = x := by
    rw [List.getD_eq_getElem L 0 hix]; exact hxe
  have hgy : L.getD iy 0 = y := by
    rw [List.getD_eq_getElem L 0 hiy]; exact hye
  have hlt : ix < iy := by
    rcases Nat.lt_trichotomy ix iy with h | h | h
    · exact h
    · subst h
      rw [hgx] at hgy
      exact absurd hgy (ne_of_gt (by linarith))
    · have := sorted_gt_getD_lt L hL iy ix h hix
      rw [hgx, hgy] at this
      linarith
  have hcongr : ∀ j ∈ Finset.range (L.length - 1),
      (if (x = L.getD j 0 ∨ y = L.getD (j+1) 0 ∨
          (L.getD j 0 ≤ x ∧ y ≤ L.getD (j+1) 0))
        then L.getD j 0 - L.getD (j+1) 0 else 0)
      = (if ix ≤ j ∧ j < iy then L.getD j 0 - L.getD (j+1) 0 else 0) := by
    intro j hjmem
    have hj : j + 1 < L.length := by
      have := Finset.mem_range.mp hjmem
      omega
    refine if_congr ?_ rfl rfl
    rw [← hgx, ← hgy]
    exact member_window L hL ix iy hix hiy hlt j hj
  rw [Finset.sum_congr rfl hcongr, telescope_window L ix iy hlt hiy, hgx, hgy]

theorem exheatFor_eq (hot cold : List Stream) (dt a b : ℚ) :
    exheatFor hot cold dt a b
      = (∑ s ∈ Finset.range hot.length,
          (if hotMember a b (hot.getD s dummyStream)
            then (hot.getD s dummyStream).flow * (hot.getD s dummyStream).cp * (a - b)
            else 0))
        + (∑ s ∈ Finset.range cold.length,
          (if coldMember dt a b (cold.getD s dummyStream)
            then (cold.getD s dummyStream).flow * (cold.getD s dummyStream).cp * (b - a)
            else 0)) := by
  unfold exheatFor hotIdxFor coldIdxFor
  rw [filter_map_sum_eq, filter_map_sum_eq, listMapRange_sum, listMapRange_sum]

/-- The per-`dt` heart of C8: the excess-heat column of the summary table sums
to the aggregate hot duty minus the aggregate cold duty (membership of a
stream in an interval of its own ladder is exactly "spans it", and its
contributions telescope). -/
theorem sum_exheat_eq (hot cold : List Stream) (dt : ℚ)
    (hhot : ∀ s ∈ hot, s.tout < s.tin) (hcold : ∀ s ∈ cold, s.tin < s.tout) :
    ((calculate_summary_table hot cold dt).map Interval.exheat).sum
      = (hot.map (fun s => s.flow * s.cp * (s.tin - s.tout))).sum
        - (cold.map (fun s => s.flow * s.cp * (s.tout - s.tin))).sum := by
  have hL : ((calculate_intervals hot cold dt).1).Pairwise (· > ·) :=
    ladder_sorted_gt hot cold dt
  have h0 : ((calculate_summary_table hot cold dt).map Interval.exheat).sum
      = ∑ j ∈ Finset.range ((calculate_intervals hot cold dt).1.length - 1),
          exheatFor hot cold dt ((calculate_intervals hot cold dt).1.getD j 0)
            ((calculate_intervals hot cold dt).1.getD (j+1) 0) := by
    show ((buildRows hot cold dt (calculate_intervals hot cold dt).1
        ((calculate_intervals hot cold dt).1.length - 1) 0 0).map Interval.exheat).sum = _
    rw [buildRows_map_exheat hot cold dt (calculate_intervals hot cold dt).1
      ((calculate_intervals hot cold dt).1.length - 1) 0 0, listMapRange_sum]
    apply Finset.sum_congr rfl
    intro j _
    simp
  rw [h0]
  have hsplit : ∀ j ∈ Finset.range ((calculate_intervals hot cold dt).1.length - 1),
      exheatFor hot cold dt ((calculate_intervals hot cold dt).1.getD j 0)
          ((calculate_intervals hot cold dt).1.getD (j+1) 0)
        = (∑ s ∈ Finset.range hot.length,
            (if hotMember ((calculate_intervals hot cold dt).1.getD j 0)
                ((calculate_intervals hot cold dt).1.getD (j+1) 0) (hot.getD s dummyStream)
              then (hot.getD s dummyStream).flow * (hot.getD s dummyStream).cp *
                ((calculate_intervals hot cold dt).1.getD j 0 -
                  (calculate_intervals hot cold dt).1.getD (j+1) 0)
              else 0))
          + (∑ s ∈ Finset.range cold.length,
            (if coldMember dt ((calculate_intervals hot cold dt).1.getD j 0)
                ((calculate_intervals hot cold dt).1.getD (j+1) 0) (cold.getD s dummyStream)
              then (cold.getD s dummyStream).flow * (cold.getD s dummyStream).cp *
                ((calculate_intervals hot cold dt).1.getD (j+1) 0 -
                  (calculate_intervals hot cold dt).1.getD j 0)
              else 0)) := by
    intro j _
    exact exheatFor_eq hot cold dt _ _
  rw [Finset.sum_congr rfl hsplit, Finset.sum_add_distrib]
  have hhotpart : (∑ j ∈ Finset.range ((calculate_intervals hot cold dt).1.length - 1),
      ∑ s ∈ Finset.range hot.length,
        (if hotMember ((calculate_intervals hot cold dt).1.getD j 0)
            ((calculate_intervals hot cold dt).1.getD (j+1) 0) (hot.getD s dummyStream)
          then (hot.getD s dummyStream).flow * (hot.getD s dummyStream).cp *
            ((calculate_intervals hot cold dt).1.getD j 0 -
              (calculate_intervals hot cold dt).1.getD (j+1) 0)
          else 0))
      = (hot.map (fun s => s.flow * s.cp * (s.tin - s.tout))).sum := by
    rw [Finset.sum_comm, ← sum_range_getD hot (fun s => s.flow * s.cp * (s.tin - s.tout))]
    apply Finset.sum_congr rfl
    intro s hs
    have hs' : s < hot.length := Finset.mem_range.mp hs
    have hmem : hot.getD s dummyStream ∈ hot := by
      rw [List.getD_eq_getElem hot dummyStream hs']
      exact List.getElem_mem _
    have hxy := hhot _ hmem
    have hxL : (hot.getD s dummyStream).tin ∈ (calculate_intervals hot cold dt).1 :=
      (mem_ladder hot cold dt _).mpr (Or.inl ⟨_, hmem, Or.inl rfl⟩)
    have hyL : (hot.getD s dummyStream).tout ∈ (calculate_intervals hot cold dt).1 :=
      (mem_ladder hot cold dt _).mpr (Or.inl ⟨_, hmem, Or.inr rfl⟩)
    have hstep : ∀ j ∈ Finset.range ((calculate_intervals hot cold dt).1.length - 1),
        (if hotMember ((calculate_intervals hot cold dt).1.getD j 0)
            ((calculate_intervals hot cold dt).1.getD (j+1) 0) (hot.getD s dummyStream)
          then (hot.getD s dummyStream).flow * (hot.getD s dummyStream).cp *
            ((calculate_intervals hot cold dt).1.getD j 0 -
              (calculate_intervals hot cold dt).1.getD (j+1) 0)
          else 0)
        = (hot.getD s dummyStream).flow * (hot.getD s dummyStream).cp *
          (if ((hot.getD s dummyStream).tin = (calculate_intervals hot cold dt).1.getD j 0
              ∨ (hot.getD s dummyStream).tout = (calculate_intervals hot cold dt).1.getD (j+1) 0
              ∨ ((calculate_intervals hot cold dt).1.getD j 0 ≤ (hot.getD s dummyStream).tin
                ∧ (hot.getD s dummyStream).tout ≤ (calculate_intervals hot cold dt).1.getD (j+1) 0))
            then ((calculate_intervals hot cold dt).1.getD j 0 -
              (calculate_intervals hot cold dt).1.getD (j+1) 0)
            else 0) := by
      intro j _
      have hiff : (hotMember ((calculate_intervals hot cold dt).1.getD j 0)
          ((calculate_intervals hot cold dt).1.getD (j+1) 0) (hot.getD s dummyStream) = true)
          ↔ ((hot.getD s dummyStream).tin = (calculate_intervals hot cold dt).1.getD j 0
              ∨ (hot.getD s dummyStream).tout = (calculate_intervals hot cold dt).1.getD (j+1) 0
              ∨ ((calculate_intervals hot cold dt).1.getD j 0 ≤ (hot.getD s dummyStream).tin
                ∧ (hot.getD s dummyStream).tout ≤ (calculate_intervals hot cold dt).1.getD (j+1) 0)) := by
        simp [hotMember]
      by_cases hq : ((hot.getD s dummyStream).tin = (calculate_intervals hot cold dt).1.getD j 0
          ∨ (hot.getD s dummyStream).tout = (calculate_intervals hot cold dt).1.getD (j+1) 0
          ∨ ((calculate_intervals hot cold dt).1.getD j 0 ≤ (hot.getD s dummyStream).tin
            ∧ (hot.getD s dummyStream).tout ≤ (calculate_intervals hot cold dt).1.getD (j+1) 0))
      · rw [if_pos (hiff.mpr hq), if_pos hq]
      · rw [if_neg (fun hp => hq (hiff.mp hp)), if_neg hq]
        ring
    rw [Finset.sum_congr rfl hstep, ← Finset.mul_sum,
      stream_contrib (calculate_intervals hot cold dt).1 hL
        (hot.getD s dummyStream).tin (hot.getD s dummyStream).tout hxL hyL hxy]
  have hcoldpart : (∑ j ∈ Finset.range ((calculate_intervals hot cold dt).1.length - 1),
      ∑ s ∈ Finset.range cold.length,
        (if coldMember dt ((calculate_intervals hot cold dt).1.getD j 0)
            ((calculate_intervals hot cold dt).1.getD (j+1) 0) (cold.getD s dummyStream)
          then (cold.getD s dummyStream).flow * (cold.getD s dummyStream).cp *
            ((calculate_intervals hot cold dt).1.getD (j+1) 0 -
              (calculate_intervals hot cold dt).1.getD j 0)
          else 0))
      = -((cold.map (fun s => s.flow * s.cp * (s.tout - s.tin))).sum) := by
    rw [Finset.sum_comm, ← sum_range_getD cold (fun s => s.flow * s.cp * (s.tout - s.tin)),
      ← Finset.sum_neg_distrib]
    apply Finset.sum_congr rfl
    intro s hs
    have hs' : s < cold.length := Finset.mem_range.mp hs
    have hmem : cold.getD s dummyStream ∈ cold := by
      rw [List.getD_eq_getElem cold dummyStream hs']
      exact List.getElem_mem _
    have hxy : (cold.getD s dummyStream).tin + dt < (cold.getD s dummyStream).tout + dt := by
      have := hcold _ hmem
      linarith
    have hxL : (cold.getD s dummyStream).tout + dt ∈ (calculate_intervals hot cold dt).1 :=
      (mem_ladder hot cold dt _).mpr (Or.inr ⟨_, hmem, Or.inr rfl⟩)
    have hyL : (cold.getD s dummyStream).tin + dt ∈ (calculate_intervals hot cold dt).1 :=
      (mem_ladder hot cold dt _).mpr (Or.inr ⟨_, hmem, Or.inl rfl⟩)
    have hstep : ∀ j ∈ Finset.range ((calculate_intervals hot cold dt).1.length - 1),
        (if coldMember dt ((calculate_intervals hot cold dt).1.getD j 0)
            ((calculate_intervals hot cold dt).1.getD (j+1) 0) (cold.getD s dummyStream)
          then (cold.getD s dummyStream).flow * (cold.getD s dummyStream).cp *
            ((calculate_intervals hot cold dt).1.getD (j+1) 0 -
              (calculate_intervals hot cold dt).1.getD j 0)
          else 0)
        = (-((cold.getD s dummyStream).flow * (cold.getD s dummyStream).cp)) *
          (if ((cold.getD s dummyStream).tout + dt = (calculate_intervals hot cold dt).1.getD j 0
              ∨ (cold.getD s dummyStream).tin + dt = (calculate_intervals hot cold dt).1.getD (j+1) 0
              ∨ ((calculate_intervals hot cold dt).1.getD j 0 ≤ (cold.getD s dummyStream).tout + dt
                ∧ (cold.getD s dummyStream).tin + dt ≤ (calculate_intervals hot cold dt).1.getD (j+1) 0))
            then ((calculate_intervals hot cold dt).1.getD j 0 -
              (calculate_intervals hot cold dt).1.getD (j+1) 0)
            else 0) := by
      intro j _
      have hiff : (coldMember dt ((calculate_intervals hot cold dt).1.getD j 0)
          ((calculate_intervals hot cold dt).1.getD (j+1) 0) (cold.getD s dummyStream) = true)
          ↔ ((cold.getD s dummyStream).tout + dt = (calculate_intervals hot cold dt).1.getD j 0
              ∨ (cold.getD s dummyStream).tin + dt = (calculate_intervals hot cold dt).1.getD (j+1) 0
              ∨ ((calculate_intervals hot cold dt).1.getD j 0 ≤ (cold.getD s dummyStream).tout + dt
                ∧ (cold.getD s dummyStream).tin + dt ≤ (calculate_intervals hot cold dt).1.getD (j+1) 0)) := by
        simp only [coldMember, decide_eq_true_eq]
        tauto
      by_cases hq : ((cold.getD s dummyStream).tout + dt = (calculate_intervals hot cold dt).1.getD j 0
          ∨ (cold.getD s dummyStream).tin + dt = (calculate_intervals hot cold dt).1.getD (j+1) 0
          ∨ ((calculate_intervals hot cold dt).1.getD j 0 ≤ (cold.getD s dummyStream).tout + dt
            ∧ (cold.getD s dummyStream).tin + dt ≤ (calculate_intervals hot cold dt).1.getD (j+1) 0))
      · rw [if_pos (hiff.mpr hq), if_pos hq]
        ring
      · rw [if_neg (fun hp => hq (hiff.mp hp)), if_neg hq]
        ring
    rw [Finset.sum_congr rfl hstep, ← Finset.mul_sum,
      stream_contrib (calculate_intervals hot cold dt).1 hL
        ((cold.getD s dummyStream).tout + dt) ((cold.getD s dummyStream).tin + dt)
        hxL hyL hxy]
    ring
  rw [hhotpart, hcoldpart]
  ring

/-- C8: the excess-heat column of the summary table sums to the aggregate net
enthalpy imbalance between hot and cold streams, and is therefore identical
for any two values of ΔTmin. -/
theorem claim_C8_theorem (hot cold : List Stream) (dt1 dt2 : ℚ)
    (hhot : ∀ s ∈ hot, s.tout < s.tin) (hcold : ∀ s ∈ cold, s.tin < s.tout) :
    ((calculate_summary_table hot cold dt1).map Interval.exheat).sum
        = (hot.map (fun s => s.flow * s.cp * (s.tin - s.tout))).sum
          - (cold.map (fun s => s.flow * s.cp * (s.tout - s.tin))).sum
    ∧ ((calculate_summary_table hot cold dt1).map Interval.exheat).sum
        = ((calculate_summary_table hot cold dt2).map Interval.exheat).sum := by
  have h1 := sum_exheat_eq hot cold dt1 hhot hcold
  have h2 := sum_exheat_eq hot cold dt2 hhot hcold
  exact ⟨h1, by rw [h1, h2]⟩

theorem claim_C8_witness :
    ((calculate_summary_table hotC1 coldC1 10).map Interval.exheat).sum
        = (hotC1.map (fun s => s.flow * s.cp * (s.tin - s.tout))).sum
          - (coldC1.map (fun s => s.flow * s.cp * (s.tout - s.tin))).sum
    ∧ ((calculate_summary_table hotC1 coldC1 10).map Interval.exheat).sum
        = ((calculate_summary_table hotC1 coldC1 25).map Interval.exheat).sum :=
  claim_C8_theorem hotC1 coldC1 10 25
    (by
      intro s hs
      simp only [hotC1, List.mem_cons, List.not_mem_nil, or_false] at hs
      rcases hs with rfl | rfl <;> norm_num)
    (by
      intro s hs
      simp only [coldC1, List.mem_cons, List.not_mem_nil, or_false] at hs
      rcases hs with rfl | rfl <;> norm_num)

end Hensad
